import Mathlib

set_option maxRecDepth 16384

/-!
# Verification of the EOD auto-reporter's aggregation and rendering core

A shallow embedding, in Lean 4, of the activity-classification,
hierarchy-building and report-rendering logic of the repository
(`app/services/clickup_service.py` and `app/services/summary_service.py`),
together with theorems settling the frozen claims about that code.

Python strings are modelled through their character lists (`List Char`);
Python `datetime` values are modelled as epoch milliseconds (`Int`) — the
code under verification never inspects them.  Python `dict`s are modelled
as insertion-ordered association lists, and `set`s as lists used only
through membership.
-/

/- ------------------------------------------------------------------
   Python string primitives
   ------------------------------------------------------------------ -/

/-- Characters Python `str.split()` / `str.strip()` treat as whitespace
(ASCII subset; exotic Unicode space characters are not modelled, no status
label or note in the claims uses them). -/
def pyIsSpace (c : Char) : Bool :=
  c = ' ' ∨ c = '\t' ∨ c = '\n' ∨ c = '\r' ∨ c = '\x0b' ∨ c = '\x0c'

/-- `str.lower()` restricted to the ASCII case mapping (`Char.toLower`). -/
def pyLower (s : String) : String := String.mk (s.data.map Char.toLower)

/-- `str.strip()` on a character list. -/
def stripChars (l : List Char) : List Char :=
  ((l.dropWhile pyIsSpace).reverse.dropWhile pyIsSpace).reverse

/-- `str.rstrip()` on a character list. -/
def rstripChars (l : List Char) : List Char :=
  (l.reverse.dropWhile pyIsSpace).reverse

/-- `str.strip()`. -/
def pyStrip (s : String) : String := String.mk (stripChars s.data)

/-- Word accumulator for Python `str.split()` (no separator argument):
splits on runs of whitespace, discarding empty pieces. -/
def pyWordsAux : List Char → List Char → List (List Char) → List (List Char)
  | [], cur, acc => if cur = [] then acc else acc ++ [cur]
  | c :: cs, cur, acc =>
    if pyIsSpace c then
      if cur = [] then pyWordsAux cs [] acc else pyWordsAux cs [] (acc ++ [cur])
    else
      pyWordsAux cs (cur ++ [c]) acc

/-- `" ".join(words)` on character lists. -/
def joinWords : List (List Char) → List Char
  | [] => []
  | [w] => w
  | w :: ws => w ++ ' ' :: joinWords ws

/-- `" ".join(text.split())`: collapse internal whitespace runs to single
spaces and drop leading/trailing whitespace. -/
def pyCollapse (s : String) : String :=
  String.mk (joinWords (pyWordsAux s.data [] []))

/-- Python `" | ".join(parts)`-style join. -/
def pyJoin (sep : String) : List String → String
  | [] => ""
  | [x] => x
  | x :: xs => x ++ sep ++ pyJoin sep xs

/-- Truthiness of an optional Python string (`if t.parent_id`): `None` and
the empty string are falsy. -/
def pyTruthy : Option String → Bool
  | none => false
  | some s => s ≠ ""

/- ------------------------------------------------------------------
   Data model (app/models/activity_models.py)
   ------------------------------------------------------------------ -/

/-- `GitHubCommit`. -/
structure GitHubCommit where
  sha : String
  message : String
  repo : String
  url : String
  timestamp : Int
deriving DecidableEq

/-- `GitHubPR`. -/
structure GitHubPR where
  number : Int
  title : String
  repo : String
  state : String
  url : String
  created_at : Int
  merged_at : Option Int := none
deriving DecidableEq

/-- `GitHubActivity`. -/
structure GitHubActivity where
  commits : List GitHubCommit := []
  prs_opened : List GitHubPR := []
  prs_merged : List GitHubPR := []
deriving DecidableEq

/-- `ClickUpTask`. -/
structure ClickUpTask where
  task_id : String
  name : String
  status : String
  previous_status : Option String := none
  parent_id : Option String := none
  url : String
  date_updated : Int
deriving DecidableEq

/-- `ClickUpComment`. -/
structure ClickUpComment where
  task_id : String
  task_name : String
  comment_text : String
  date : Int
deriving DecidableEq

/-- `ClickUpActivity`. -/
structure ClickUpActivity where
  tasks_updated : List ClickUpTask := []
  tasks_completed : List ClickUpTask := []
  status_changes : List ClickUpTask := []
  comments : List ClickUpComment := []
deriving DecidableEq

/-- `DailyActivity` (the fields the renderer consumes; the
`slack_discussions` and `ai_summary` fields are never read by the code
under verification and are omitted). -/
structure DailyActivity where
  date : String
  github : GitHubActivity := {}
  clickup : ClickUpActivity := {}
  manual_updates : List String := []
deriving DecidableEq

/- ------------------------------------------------------------------
   Work-item classification (app/services/clickup_service.py)
   ------------------------------------------------------------------ -/

/-- `_COMPLETED_STATUSES`. -/
def completedStatuses : List String := ["complete", "closed", "done", "resolved"]

/-- `_IN_PROGRESS_STATUSES`. -/
def inProgressStatuses : List String :=
  ["in progress", "in review", "review", "qa", "testing", "dev-test",
   "ready for review", "in development"]

/-- The classification buckets. -/
inductive Bucket where
  | completed
  | inProgress
  | excluded
deriving DecidableEq

/-- `t.get("status", {}).get("status", "unknown").lower()`: the label the
classifier works on; `none` models a missing status field. -/
def rawStatusLabel (raw_status : Option String) : String :=
  pyLower (raw_status.getD "unknown")

/-- The classification branch of `_parse_tasks` (lines 158–176), as a pure
function of the raw status field. -/
def classify (raw_status : Option String) : Bucket :=
  let label := rawStatusLabel raw_status
  if label ∈ completedStatuses then .completed
  else if label ∈ inProgressStatuses then .inProgress
  else .excluded

/-- The loop of `_parse_tasks` restricted to its bucket assignment:
returns (`tasks_in_progress`, `tasks_completed`) as the raw statuses that
were filed into each list, in loop order. -/
def parse_statuses (raws : List (Option String)) :
    List (Option String) × List (Option String) :=
  raws.foldl
    (fun acc s =>
      if rawStatusLabel s ∈ completedStatuses then (acc.1, acc.2 ++ [s])
      else if rawStatusLabel s ∈ inProgressStatuses then (acc.1 ++ [s], acc.2)
      else acc)
    ([], [])

/- ------------------------------------------------------------------
   Task hierarchy (summary_service._build_task_hierarchy)
   ------------------------------------------------------------------ -/

/-- `t.task_id in task_by_id` for the lookup `{t.task_id: t for t in tasks}`:
key membership over the input list. -/
def hasId (tasks : List ClickUpTask) (i : String) : Bool :=
  tasks.any (fun t => t.task_id = i)

/-- The test `t.parent_id and t.parent_id in task_by_id` of line 166. -/
def isChildOf (tasks : List ClickUpTask) (t : ClickUpTask) : Bool :=
  pyTruthy t.parent_id && hasId tasks (t.parent_id.getD "")

/-- One iteration of the `_build_task_hierarchy` loop (lines 165–171); the
`elif parent_id is None` and final `else` branches both append to
`top_level` and are collapsed.  The children dict is modelled as a total
function defaulting to `[]` (a `defaultdict(list)` read via `.get(p, [])`). -/
def hierStep (tasks : List ClickUpTask)
    (acc : List ClickUpTask × (String → List ClickUpTask)) (t : ClickUpTask) :
    List ClickUpTask × (String → List ClickUpTask) :=
  if isChildOf tasks t then
    (acc.1, fun p => if p = t.parent_id.getD "" then acc.2 p ++ [t] else acc.2 p)
  else
    (acc.1 ++ [t], acc.2)

/-- `_build_task_hierarchy` (lines 157–173): returns
(`top_level`, `children`). -/
def build_task_hierarchy (tasks : List ClickUpTask) :
    List ClickUpTask × (String → List ClickUpTask) :=
  tasks.foldl (hierStep tasks) ([], fun _ => [])

/- ------------------------------------------------------------------
   Block Kit model (summary_service, Block Kit helpers)
   ------------------------------------------------------------------ -/

/-- A `rich_text` inline element: `_text` (with its optional bold/italic
style flags) or `_link` (with its optional bold flag). -/
inductive InlineElem where
  | text (t : String) (bold : Bool) (italic : Bool)
  | link (url : String) (t : String) (bold : Bool)
deriving DecidableEq

/-- `_text(t, bold, italic)`. -/
def mkText (t : String) (bold : Bool := false) (italic : Bool := false) :
    InlineElem :=
  .text t bold italic

/-- `_link(url, t, bold)`. -/
def mkLink (url : String) (t : String) (bold : Bool := false) : InlineElem :=
  .link url t bold

/-- The emptiness test of `_section` (line 75): a text node whose text is
the empty string. -/
def isEmptyTextElem : InlineElem → Bool
  | .text t _ _ => t = ""
  | .link _ _ _ => false

/-- `_section(*elements)` (lines 68–82): drop empty text nodes; if nothing
remains substitute a single `" "` text node.  (The `if not elem` skip of
line 72 is dead in this model: every element built by `_text`/`_link` is a
non-empty dict.)  The resulting element list is the section. -/
def mkSection (elements : List InlineElem) : List InlineElem :=
  let cleaned := elements.filter (fun e => !(isEmptyTextElem e))
  if cleaned = [] then [mkText " "] else cleaned

/-- A member of the `rich_text` element list: a `rich_text_section`, or a
`rich_text_list` (`_list_block`) whose items are sections. -/
inductive RichElem where
  | sec (elems : List InlineElem)
  | list (indent : Nat) (items : List (List InlineElem))
deriving DecidableEq

/-- `_status_prefix` (lines 27–40). -/
def statusTag (status : String) : String :=
  (([("in progress", "wip"), ("in review", "dev-test"), ("review", "dev-test"),
     ("qa", "dev-test"), ("testing", "dev-test"), ("done", "completed"),
     ("complete", "completed"), ("closed", "completed"),
     ("resolved", "completed")] : List (String × String)).lookup
    (pyLower status)).getD ""

/- ------------------------------------------------------------------
   Comments (summary_service lines 176–209)
   ------------------------------------------------------------------ -/

/-- One iteration of the `_group_comments_by_task` loop (lines 179–182):
append the stripped comment text under its task id when non-empty. -/
def commentGroupStep (grouped : String → List String) (c : ClickUpComment) :
    String → List String :=
  let text := pyStrip c.comment_text
  if text ≠ "" then
    fun tid => if tid = c.task_id then grouped tid ++ [text] else grouped tid
  else grouped

/-- `_group_comments_by_task` (lines 176–183): comment snippets keyed by
task id, in arrival order, skipping whitespace-only comments; the dict is
modelled as a total function defaulting to `[]`. -/
def group_comments_by_task (comments : List ClickUpComment) :
    String → List String :=
  comments.foldl commentGroupStep (fun _ => [])

/-- `_shorten_line` (lines 186–191). -/
def shorten_line (text : String) (limit : Nat := 100) : String :=
  let clean := pyCollapse text
  if clean.length ≤ limit then clean
  else String.mk (rstripChars (clean.data.take (limit - 1)) ++ ['…'])

/-- `_task_comment_subtext` (lines 194–209). -/
def task_comment_subtext (task_id : String)
    (comments_by_task : String → List String) : String :=
  match comments_by_task task_id with
  | [] => ""
  | [a] => "\nnote: " ++ shorten_line a
  | a :: b :: _ => ("\nnote: " ++ shorten_line a) ++ ("\nnote: " ++ shorten_line b)

/- ------------------------------------------------------------------
   GitHub section (summary_service._build_github_elements)
   ------------------------------------------------------------------ -/

/-- `repo.split("/")[-1]`: the substring after the final `/` (the whole
string when there is no `/`). -/
def repoShort (repo : String) : String := (repo.splitOn "/").getLastD ""

/-- One `defaultdict(list)` append: extend the entry for key `k` (keys
keep insertion order). -/
def groupAppend {α : Type} (m : List (String × List α)) (k : String) (a : α) :
    List (String × List α) :=
  match m with
  | [] => [(k, [a])]
  | (k', v) :: rest =>
    if k' = k then (k', v ++ [a]) :: rest else (k', v) :: groupAppend rest k a

/-- `m.get(k, [])` on the grouped dict. -/
def getGroup {α : Type} (m : List (String × List α)) (k : String) : List α :=
  (((m.find? (fun e => e.1 = k)).map Prod.snd)).getD []

/-- `list(m.keys())`. -/
def groupKeys {α : Type} (m : List (String × List α)) : List String :=
  m.map Prod.fst

/-- The `commits_by_repo` dict (lines 113–116), capped at the first 15
commits. -/
def commitsByRepo (gh : GitHubActivity) : List (String × List GitHubCommit) :=
  (gh.commits.take 15).foldl
    (fun m c => groupAppend m (repoShort c.repo) c) []

/-- The `prs_by_repo` dict (lines 118–124): first 15 opened PRs tagged
`"opened"`, then first 15 merged PRs tagged `"merged"`. -/
def prsByRepo (gh : GitHubActivity) : List (String × List (String × GitHubPR)) :=
  (gh.prs_merged.take 15).foldl
    (fun m pr => groupAppend m (repoShort pr.repo) ("merged", pr))
    ((gh.prs_opened.take 15).foldl
      (fun m pr => groupAppend m (repoShort pr.repo) ("opened", pr)) [])

/-- `sorted(...)` on strings (lexicographic by code point). -/
def sortStrings (l : List String) : List String :=
  l.mergeSort (fun a b => a ≤ b)

/-- `all_repos = sorted(set(list(commits_by_repo) + list(prs_by_repo)))`
(line 126). -/
def allRepos (gh : GitHubActivity) : List String :=
  sortStrings ((groupKeys (commitsByRepo gh) ++ groupKeys (prsByRepo gh)).dedup)

/-- A PR bullet: `"PR opened: "` / `"PR merged: "` label plus the PR title
linked to its URL (lines 137–139 and 148–150). -/
def prItemSection (action : String) (pr : GitHubPR) : List InlineElem :=
  let label := if action = "merged" then "PR merged: " else "PR opened: "
  mkSection [mkText label, mkLink pr.url pr.title]

/-- The per-repo item list: that repo's commit messages then its PRs
(lines 134–139 / 144–150). -/
def repoSubItems (gh : GitHubActivity) (repo : String) :
    List (List InlineElem) :=
  (getGroup (commitsByRepo gh) repo).map (fun c => mkSection [mkText c.message])
    ++ (getGroup (prsByRepo gh) repo).map (fun ap => prItemSection ap.1 ap.2)

/-- `_build_github_elements` (lines 105–154); the `repos`, `repo` and
`sub` bindings of the source are inlined. -/
def build_github_elements (gh : GitHubActivity) : List RichElem :=
  if gh.commits = [] ∧ gh.prs_opened = [] ∧ gh.prs_merged = [] then []
  else if (allRepos gh).length > 1 then
    (allRepos gh).foldl
      (fun elements repo =>
        (elements ++ [RichElem.list 1 [mkSection [mkText (repo ++ ":")]]])
          ++ (if repoSubItems gh repo ≠ [] then
                [RichElem.list 2 (repoSubItems gh repo)]
              else []))
      []
  else if repoSubItems gh ((allRepos gh).headD "") ≠ [] then
    [RichElem.list 1 (repoSubItems gh ((allRepos gh).headD ""))]
  else []

/-- The repo keys of the capped commit and PR lists (claim C2's "union of
repo keys over commits, opened PRs and merged PRs"). -/
def specRepoKeys (gh : GitHubActivity) : List String :=
  (gh.commits.take 15).map (fun c => repoShort c.repo)
    ++ (gh.prs_opened.take 15).map (fun pr => repoShort pr.repo)
    ++ (gh.prs_merged.take 15).map (fun pr => repoShort pr.repo)

/-- Claim C2's per-repo item list: the repo's commit messages, then its
opened PRs, then its merged PRs, labels and links as the claim states. -/
def specItemsFor (gh : GitHubActivity) (repo : String) :
    List (List InlineElem) :=
  ((gh.commits.take 15).filter (fun c => repoShort c.repo = repo)).map
      (fun c => mkSection [mkText c.message])
    ++ ((gh.prs_opened.take 15).filter (fun pr => repoShort pr.repo = repo)).map
      (fun pr => mkSection [mkText "PR opened: ", mkLink pr.url pr.title])
    ++ ((gh.prs_merged.take 15).filter (fun pr => repoShort pr.repo = repo)).map
      (fun pr => mkSection [mkText "PR merged: ", mkLink pr.url pr.title])

/-- The Development-section layout as claim C2 words it: for more than one
repo key, for each repo in alphabetical order an indent-1 bullet naming
the repo followed by the indent-2 item list; for exactly one repo the item
list directly at indent 1; taking only the first 15 of each input list. -/
def githubElementsSpec (gh : GitHubActivity) : List RichElem :=
  if (sortStrings (specRepoKeys gh).dedup).length > 1 then
    (sortStrings (specRepoKeys gh).dedup).flatMap (fun repo =>
      [RichElem.list 1 [mkSection [mkText (repo ++ ":")]],
       RichElem.list 2 (specItemsFor gh repo)])
  else if (sortStrings (specRepoKeys gh).dedup).length = 1 then
    [RichElem.list 1
      (specItemsFor gh ((sortStrings (specRepoKeys gh).dedup).headD ""))]
  else []

/- ------------------------------------------------------------------
   Task-updates section (summary_service._build_clickup_elements)
   ------------------------------------------------------------------ -/

/-- The `"completed: "` bullet for a task (lines 230 and 249). -/
def completedTaskSection (t : ClickUpTask) (m : String → List String) :
    List InlineElem :=
  mkSection [mkText "completed: ", mkLink t.url t.name,
             mkText (task_comment_subtext t.task_id m) false true]

/-- A child bullet: link, `" - <status prefix>"` suffix when the prefix is
non-empty, comment subtext (lines 237–240 and 266–269). -/
def childTaskSection (t : ClickUpTask) (m : String → List String) :
    List InlineElem :=
  let tag := statusTag t.status
  let suffix := if tag ≠ "" then " - " ++ tag else ""
  mkSection [mkLink t.url t.name, mkText suffix,
             mkText (task_comment_subtext t.task_id m) false true]

/-- A labelled task bullet: `"<status prefix>: "` label when the prefix is
non-empty, link, comment subtext (lines 256–259 and 278–281). -/
def labelledTaskSection (t : ClickUpTask) (m : String → List String) :
    List InlineElem :=
  let tag := statusTag t.status
  let label := if tag ≠ "" then tag ++ ": " else ""
  mkSection [mkText label, mkLink t.url t.name,
             mkText (task_comment_subtext t.task_id m) false true]

/-- One guarded emission: skip a task whose id is in the rendered set,
otherwise add its id and append `g t` (the `if … not in rendered` pattern
of the four passes). -/
def guardedEmit {β : Type} (g : ClickUpTask → β)
    (rc : List String × List β) (t : ClickUpTask) : List String × List β :=
  if t.task_id ∈ rc.1 then rc else (t.task_id :: rc.1, rc.2 ++ [g t])

/-- The child loop shared by passes 1 and 3 (lines 234–241 and 263–270):
each unrendered child of `t` is marked rendered and emits one child
section; the rendered set starts from the parent's (which has just been
pushed). -/
def childFoldOf (children : String → List ClickUpTask)
    (m : String → List String)
    (st : List String × List RichElem) (t : ClickUpTask) :
    List String × List (List InlineElem) :=
  (children t.task_id).foldl
    (guardedEmit (fun c => childTaskSection c m)) (t.task_id :: st.1, [])

/-- The emission shared by passes 1 and 3: push the parent's id, append its
indent-1 bullet (`sec`), run the child loop, and append the indent-2 child
list only when non-empty. -/
def emitWithChildren (children : String → List ClickUpTask)
    (m : String → List String) (sec : List InlineElem)
    (st : List String × List RichElem) (t : ClickUpTask) :
    List String × List RichElem :=
  ((childFoldOf children m st t).1,
   if (childFoldOf children m st t).2 ≠ [] then
     (st.2 ++ [RichElem.list 1 [sec]])
       ++ [RichElem.list 2 (childFoldOf children m st t).2]
   else st.2 ++ [RichElem.list 1 [sec]])

/-- Pass 1 (lines 227–243): a top-level task in the completed bucket gets a
`"completed: "` indent-1 bullet, then its unrendered children as one
indent-2 list (appended only when non-empty). -/
def pass1Step (children : String → List ClickUpTask)
    (m : String → List String) (completedIds : List String)
    (st : List String × List RichElem) (t : ClickUpTask) :
    List String × List RichElem :=
  if t.task_id ∈ completedIds ∧ t.task_id ∉ st.1 then
    emitWithChildren children m (completedTaskSection t m) st t
  else st

/-- Pass 2 (lines 246–250): any unrendered completed task gets its own
indent-1 `"completed: "` bullet. -/
def pass2Step (m : String → List String)
    (st : List String × List RichElem) (t : ClickUpTask) :
    List String × List RichElem :=
  guardedEmit (fun t => RichElem.list 1 [completedTaskSection t m]) st t

/-- Pass 3 (lines 253–272): each remaining top-level task gets a labelled
indent-1 bullet, then its unrendered children as one indent-2 list. -/
def pass3Step (children : String → List ClickUpTask)
    (m : String → List String)
    (st : List String × List RichElem) (t : ClickUpTask) :
    List String × List RichElem :=
  if t.task_id ∈ st.1 then st
  else emitWithChildren children m (labelledTaskSection t m) st t

/-- The state (rendered set, emitted blocks) after the first three passes
of `_build_clickup_elements` (lines 219–272, the `let` bindings of the
source inlined): pass 1 over the top-level tasks, pass 2 over the
completed tasks, pass 3 over the top-level tasks. -/
def clickupPrefixState (cu : ClickUpActivity) : List String × List RichElem :=
  (build_task_hierarchy cu.tasks_updated).1.foldl
    (pass3Step (build_task_hierarchy cu.tasks_updated).2
      (group_comments_by_task cu.comments))
    (cu.tasks_completed.foldl
      (pass2Step (group_comments_by_task cu.comments))
      ((build_task_hierarchy cu.tasks_updated).1.foldl
        (pass1Step (build_task_hierarchy cu.tasks_updated).2
          (group_comments_by_task cu.comments)
          (cu.tasks_completed.map (fun t => t.task_id)))
        ([], [])))

/-- Pass 4 (lines 275–282): the remaining unrendered tasks of
`tasks_updated`, collected as flat sections. -/
def clickupFinalFold (cu : ClickUpActivity) :
    List String × List (List InlineElem) :=
  cu.tasks_updated.foldl
    (guardedEmit (fun t =>
      labelledTaskSection t (group_comments_by_task cu.comments)))
    ((clickupPrefixState cu).1, [])

/-- `_build_clickup_elements` (lines 212–286), keeping the rendered-id set
alongside the emitted blocks.  The rendered set is a cons list: one entry
is pushed exactly when one bullet for that task is appended, so it lists
(in reverse emission order) the tasks rendered as bullets. -/
def clickupState (cu : ClickUpActivity) : List String × List RichElem :=
  if cu.tasks_updated = [] ∧ cu.tasks_completed = [] ∧ cu.comments = [] then
    ([], [])
  else
    ((clickupFinalFold cu).1,
     if (clickupFinalFold cu).2 ≠ [] then
       (clickupPrefixState cu).2 ++ [RichElem.list 1 (clickupFinalFold cu).2]
     else (clickupPrefixState cu).2)

/-- The blocks emitted by `_build_clickup_elements`. -/
def build_clickup_elements (cu : ClickUpActivity) : List RichElem :=
  (clickupState cu).2

/-- The ids of the tasks rendered as bullets by `_build_clickup_elements`
(the final `rendered` set, one entry per emitted bullet). -/
def clickupRendered (cu : ClickUpActivity) : List String :=
  (clickupState cu).1

/- ------------------------------------------------------------------
   Next section (summary_service._build_next_elements)
   ------------------------------------------------------------------ -/

/-- The completed-bucket id set of line 291. -/
def completedTaskIds (a : DailyActivity) : List String :=
  a.clickup.tasks_completed.map (fun t => t.task_id)

/-- The `candidates` filter of lines 294–299. -/
def next_candidates (a : DailyActivity) : List ClickUpTask :=
  a.clickup.status_changes.filter
    (fun t =>
      decide (pyLower t.status ∈
        (["in progress", "in review", "review", "in development"] : List String))
      && decide (t.task_id ∉ completedTaskIds a)
      && decide (t.parent_id = none))

/-- One Next bullet (lines 303–305): `"<status prefix>: "` or `"pick: "`
label plus the task link. -/
def nextItemSection (t : ClickUpTask) : List InlineElem :=
  let tag := statusTag t.status
  let label := if tag ≠ "" then tag ++ ": " else "pick: "
  mkSection [mkText label, mkLink t.url t.name]

/-- `_build_next_elements` (lines 289–307): the first 3 candidates as
Next items. -/
def build_next_elements (a : DailyActivity) : List (List InlineElem) :=
  ((next_candidates a).take 3).map nextItemSection

/- ------------------------------------------------------------------
   Manual-updates section (summary_service._build_manual_elements)
   ------------------------------------------------------------------ -/

/-- The per-note cleanup of line 316: `" ".join(str(text).split()).strip()`. -/
def collapseNote (text : String) : String := pyStrip (pyCollapse text)

/-- The truncation of lines 319–320: over 180 characters, keep the first
179, strip trailing whitespace, append one ellipsis character. -/
def truncNote (clean : String) : String :=
  if clean.length > 180 then String.mk (rstripChars (clean.data.take 179) ++ ['…'])
  else clean

/-- One iteration of the `_build_manual_elements` loop (lines 315–321):
skip notes that collapse to nothing, bullet the rest. -/
def manualFold (items : List (List InlineElem)) (text : String) :
    List (List InlineElem) :=
  let clean := collapseNote text
  if clean = "" then items
  else items ++ [mkSection [mkText (truncNote clean)]]

/-- The `items` list of `_build_manual_elements` (lines 314–321): the loop
over the first 20 notes. -/
def manualItems (manual_updates : List String) : List (List InlineElem) :=
  (manual_updates.take 20).foldl manualFold []

/-- `_build_manual_elements` (lines 310–324): at most the first 20 notes,
one indent-1 list when anything survives. -/
def build_manual_elements (manual_updates : List String) : List RichElem :=
  if manual_updates = [] then []
  else if manualItems manual_updates = [] then []
  else [RichElem.list 1 (manualItems manual_updates)]

/- ------------------------------------------------------------------
   Top-level renderer (summary_service.generate_summary_blocks)
   ------------------------------------------------------------------ -/

/-- The bold `"Next:"` header section of line 369. -/
def nextHeader : RichElem := RichElem.sec (mkSection [mkText "Next:" true])

/-- The bold `"Updates:"` header section of line 342. -/
def updatesHeader : RichElem := RichElem.sec (mkSection [mkText "Updates:" true])

/-- `rt_elements` after the Development block (lines 341–348). -/
def summaryStage1 (a : DailyActivity) : List RichElem :=
  if build_github_elements a.github ≠ [] then
    ([updatesHeader]
      ++ [RichElem.list 0 [mkSection [mkText "Development:" true]]])
      ++ build_github_elements a.github
  else [updatesHeader]

/-- `rt_elements` after the Task-updates block (lines 350–354). -/
def summaryStage2 (a : DailyActivity) : List RichElem :=
  if build_clickup_elements a.clickup ≠ [] then
    (summaryStage1 a
      ++ [RichElem.list 0 [mkSection [mkText "Task updates:" true]]])
      ++ build_clickup_elements a.clickup
  else summaryStage1 a

/-- `rt_elements` after the Manual-updates block (lines 356–360). -/
def summaryStage3 (a : DailyActivity) : List RichElem :=
  if build_manual_elements a.manual_updates ≠ [] then
    (summaryStage2 a
      ++ [RichElem.list 0 [mkSection [mkText "Additional updates:" true]]])
      ++ build_manual_elements a.manual_updates
  else summaryStage2 a

/-- The rich-text elements accumulated by `generate_summary_blocks` before
the Next section (lines 339–364): the `"Updates:"` header, then the
conditional Development / Task-updates / Additional-updates sections, then
the empty-state bullet when only the header was produced. -/
def summary_base (a : DailyActivity) : List RichElem :=
  if (summaryStage3 a).length = 1 then
    summaryStage3 a
      ++ [RichElem.list 0 [mkSection [mkText "No tracked activity today." false true]]]
  else summaryStage3 a

/-- The full `rich_text` element list of `generate_summary_blocks`
(lines 331–375): the base, then — only when there are Next items — the
bold `"Next:"` header and the indent-0 Next list. -/
def summary_rt_elements (a : DailyActivity) : List RichElem :=
  if build_next_elements a ≠ [] then
    (summary_base a ++ [nextHeader]) ++ [RichElem.list 0 (build_next_elements a)]
  else summary_base a

/-- `generate_summary_blocks`: one `rich_text` block holding the element
list (modelled as that list). -/
def generate_summary_blocks (a : DailyActivity) : List (List RichElem) :=
  [summary_rt_elements a]

/- ------------------------------------------------------------------
   Plain-text fallback (summary_service.generate_summary)
   ------------------------------------------------------------------ -/

/-- `generate_summary` (lines 378–399). -/
def generate_summary (a : DailyActivity) : String :=
  let parts := ["Updates:"]
  let parts := if a.github.commits ≠ [] ∨ a.github.prs_opened ≠ [] ∨
      a.github.prs_merged ≠ [] then
      parts ++ ["Development: " ++ toString a.github.commits.length
        ++ " commits, " ++ toString a.github.prs_opened.length
        ++ " PRs opened, " ++ toString a.github.prs_merged.length
        ++ " PRs merged"]
    else parts
  let parts := if a.clickup.tasks_completed ≠ [] then
      parts ++ ["Completed: " ++ toString a.clickup.tasks_completed.length ++ " tasks"]
    else parts
  let parts := if a.clickup.status_changes ≠ [] then
      parts ++ ["In progress: " ++ toString a.clickup.status_changes.length ++ " tasks"]
    else parts
  let parts := if a.manual_updates ≠ [] then
      parts ++ ["Additional updates: " ++ toString a.manual_updates.length]
    else parts
  pyJoin " | " parts

/-- Append each clause preceded by the separator (claim C8's "appends …
pipe-separated clauses"). -/
def prependEach (sep : String) : List String → String
  | [] => ""
  | cl :: rest => (sep ++ cl) ++ prependEach sep rest

/-- Concatenation of a list of strings. -/
def concatStrs : List String → String
  | [] => ""
  | x :: xs => x ++ concatStrs xs

/-- Claim C8's wording of the fallback: always starts with `"Updates:"`,
then appends the conditional clauses, joined with `" | "`. -/
def fallbackSpec (a : DailyActivity) : String :=
  let clauses :=
    (if 0 < a.github.commits.length ∨ 0 < a.github.prs_opened.length ∨
        0 < a.github.prs_merged.length then
      ["Development: " ++ toString a.github.commits.length
        ++ " commits, " ++ toString a.github.prs_opened.length
        ++ " PRs opened, " ++ toString a.github.prs_merged.length
        ++ " PRs merged"]
     else [])
    ++ (if 0 < a.clickup.tasks_completed.length then
      ["Completed: " ++ toString a.clickup.tasks_completed.length ++ " tasks"]
     else [])
    ++ (if 0 < a.clickup.status_changes.length then
      ["In progress: " ++ toString a.clickup.status_changes.length ++ " tasks"]
     else [])
    ++ (if 0 < a.manual_updates.length then
      ["Additional updates: " ++ toString a.manual_updates.length]
     else [])
  "Updates:" ++ prependEach " | " clauses

/- ------------------------------------------------------------------
   Well-formedness checker for claim C10
   ------------------------------------------------------------------ -/

/-- A section is non-degenerate: it has at least one element and contains
no empty text node. -/
def sectionOKb (s : List InlineElem) : Bool :=
  !(s.isEmpty) && s.all (fun e => !(isEmptyTextElem e))

/-- Every section inside a rich-text element is non-degenerate. -/
def richElemOK : RichElem → Bool
  | .sec s => sectionOKb s
  | .list _ items => items.all sectionOKb

/-- Every section of every block of the rendered document is
non-degenerate. -/
def docOK (blocks : List (List RichElem)) : Bool :=
  blocks.all (fun elems => elems.all richElemOK)

/-- Discriminator used to show the `"Next:"` header appears nowhere in the
pre-Next document: section builders only ever emit `rich_text_list`
blocks. -/
def isListElem : RichElem → Bool
  | .sec _ => false
  | .list _ _ => true

/- ------------------------------------------------------------------
   Concrete values used by counterexamples and witnesses
   ------------------------------------------------------------------ -/

/-- A 200-character manual note with a space at index 178 (just before the
truncation cut). -/
def manualNote200 : String :=
  String.mk (List.replicate 178 'a' ++ [' '] ++ List.replicate 21 'b')

/-- A 200-character manual note with no whitespace. -/
def manualNotePlain200 : String := String.mk (List.replicate 200 'a')

/-- A 250-character comment with a space at index 98 (just before the
truncation cut). -/
def comment250 : String :=
  String.mk (List.replicate 98 'a' ++ [' '] ++ List.replicate 151 'b')

/-- A 250-character comment with no whitespace. -/
def commentPlain250 : String := String.mk (List.replicate 250 'a')

/-- A concrete commit in `org/app`. -/
def exampleCommit : GitHubCommit :=
  { sha := "abc123", message := "fix: resolve flaky test", repo := "org/app",
    url := "https://github.com/org/app/commit/abc123", timestamp := 0 }

/-- A concrete opened PR in `org/app`. -/
def examplePR : GitHubPR :=
  { number := 42, title := "Add caching layer", repo := "org/app",
    state := "open", url := "https://github.com/org/app/pull/42",
    created_at := 0 }

/-- A concrete completed task. -/
def exampleDoneTask : ClickUpTask :=
  { task_id := "d1", name := "Write tests", status := "done",
    url := "https://app.clickup.com/t/d1", date_updated := 0 }

/-- The snapshot of claim C8's concrete example: 3 commits, 1 opened PR,
no merged PRs, 2 completed tasks, nothing in progress, no manual notes. -/
def fallbackExample : DailyActivity :=
  { date := "2026-02-13",
    github := { commits := [exampleCommit, exampleCommit, exampleCommit],
                prs_opened := [examplePR], prs_merged := [] },
    clickup := { tasks_completed :=
      [exampleDoneTask, { exampleDoneTask with task_id := "d2" }] },
    manual_updates := [] }

/-- A concrete in-progress top-level task, used to exercise the Next
section. -/
def exampleWipTask : ClickUpTask :=
  { task_id := "w1", name := "Ship v2", status := "in progress",
    url := "https://app.clickup.com/t/w1", date_updated := 0 }

/-- A concrete snapshot with one in-progress task, used by witnesses. -/
def wipExample : DailyActivity :=
  { date := "2026-02-13",
    clickup := { tasks_updated := [exampleWipTask],
                 status_changes := [exampleWipTask] } }

/-- A concrete task whose parent reference points at `cycleTaskB`. -/
def cycleTaskA : ClickUpTask :=
  { task_id := "a", name := "Task A", status := "in progress",
    parent_id := some "b", url := "https://app.clickup.com/t/a",
    date_updated := 0 }

/-- A concrete task whose parent reference points back at `cycleTaskA`. -/
def cycleTaskB : ClickUpTask :=
  { task_id := "b", name := "Task B", status := "in progress",
    parent_id := some "a", url := "https://app.clickup.com/t/b",
    date_updated := 0 }

/- ------------------------------------------------------------------
   Theorems for claim C1
   ------------------------------------------------------------------ -/

theorem parse_statuses_foldl (raws : List (Option String))
    (acc : List (Option String) × List (Option String)) :
    raws.foldl
      (fun acc s =>
        if rawStatusLabel s ∈ completedStatuses then (acc.1, acc.2 ++ [s])
        else if rawStatusLabel s ∈ inProgressStatuses then (acc.1 ++ [s], acc.2)
        else acc) acc
    = (acc.1 ++ raws.filter (fun s => classify s = Bucket.inProgress),
       acc.2 ++ raws.filter (fun s => classify s = Bucket.completed)) := by
  induction raws generalizing acc with
  | nil => simp
  | cons s ss ih =>
    by_cases hc : rawStatusLabel s ∈ completedStatuses
    · simp only [List.foldl_cons, if_pos hc, ih, List.filter_cons]
      have h1 : classify s = Bucket.completed := by
        simp [classify, hc]
      simp [h1]
    · by_cases hp : rawStatusLabel s ∈ inProgressStatuses
      · simp only [List.foldl_cons, if_neg hc, if_pos hp, ih, List.filter_cons]
        have h1 : classify s = Bucket.inProgress := by
          simp [classify, hc, hp]
        have h2 : classify s ≠ Bucket.completed := by simp [h1]
        simp [h1, h2]
      · simp only [List.foldl_cons, if_neg hc, if_neg hp, ih, List.filter_cons]
        have h1 : classify s = Bucket.excluded := by
          simp [classify, hc, hp]
        have h2 : classify s ≠ Bucket.completed := by simp [h1]
        have h3 : classify s ≠ Bucket.inProgress := by simp [h1]
        simp [h2, h3]

/-- C1 (counterexample): the claim says classification is a function of the
lower-cased **trimmed** status label, so a raw status `" done"` (whose
trimmed, lower-cased form `"done"` is in the completed vocabulary) would
have to be classified `completed`; the code never trims, and excludes it. -/
theorem C1_counterexample :
    pyStrip (pyLower " done") ∈ completedStatuses ∧
    classify (some " done") = Bucket.excluded ∧
    Bucket.excluded ≠ Bucket.completed := by
  refine ⟨by decide, by decide, by decide⟩

/-- C1 (amended): for every raw work item, classification assigns exactly
one bucket as a pure function of its lower-cased (but not trimmed) status
label: `completed` iff the lower-cased label is in
{complete, closed, done, resolved}; `in-progress` iff it is in
{in progress, in review, review, qa, testing, dev-test, ready for review,
in development}; `excluded` for every other label; no label causes an
error or a rejected item, and the `_parse_tasks` loop files each item into
exactly the list its bucket dictates, in input order. -/
theorem C1_classification (s : Option String) (raws : List (Option String)) :
    (classify s = Bucket.completed ↔ rawStatusLabel s ∈ completedStatuses) ∧
    (classify s = Bucket.inProgress ↔ rawStatusLabel s ∈ inProgressStatuses ∧
        rawStatusLabel s ∉ completedStatuses) ∧
    (classify s = Bucket.excluded ↔ rawStatusLabel s ∉ completedStatuses ∧
        rawStatusLabel s ∉ inProgressStatuses) ∧
    parse_statuses raws
      = (raws.filter (fun s => classify s = Bucket.inProgress),
         raws.filter (fun s => classify s = Bucket.completed)) := by
  refine ⟨?_, ?_, ?_, ?_⟩
  · constructor
    · intro h
      by_contra hc
      simp [classify, hc] at h
      split at h <;> simp_all
    · intro h; simp [classify, h]
  · constructor
    · intro h
      by_cases hc : rawStatusLabel s ∈ completedStatuses
      · simp [classify, hc] at h
      · by_cases hp : rawStatusLabel s ∈ inProgressStatuses
        · exact ⟨hp, hc⟩
        · simp [classify, hc, hp] at h
    · intro ⟨hp, hc⟩; simp [classify, hc, hp]
  · constructor
    · intro h
      by_cases hc : rawStatusLabel s ∈ completedStatuses
      · simp [classify, hc] at h
      · by_cases hp : rawStatusLabel s ∈ inProgressStatuses
        · simp [classify, hc, hp] at h
        · exact ⟨hc, hp⟩
    · intro ⟨hc, hp⟩; simp [classify, hc, hp]
  · simpa [parse_statuses] using parse_statuses_foldl raws ([], [])

/-- C1 witness: the amended characterization evaluated at concrete inputs. -/
theorem C1_witness :
    classify (some "Done") = Bucket.completed ∧
    classify (some "QA") = Bucket.inProgress ∧
    classify (some "backlog") = Bucket.excluded ∧
    parse_statuses [some "done", some "open", some "qa"]
      = ([some "qa"], [some "done"]) := by
  refine ⟨?_, ?_, ?_, ?_⟩
  · exact (C1_classification (some "Done") []).1.mpr (by decide)
  · exact (C1_classification (some "QA") []).2.1.mpr (by decide)
  · exact (C1_classification (some "backlog") []).2.2.1.mpr (by decide)
  · rw [(C1_classification none [some "done", some "open", some "qa"]).2.2.2]
    decide

/- ------------------------------------------------------------------
   Theorems for claims C3 and C9 (hierarchy builder)
   ------------------------------------------------------------------ -/

theorem hier_foldl_top (tasks l : List ClickUpTask)
    (acc : List ClickUpTask × (String → List ClickUpTask)) :
    (l.foldl (hierStep tasks) acc).1
      = acc.1 ++ l.filter (fun t => !(isChildOf tasks t)) := by
  induction l generalizing acc with
  | nil => simp
  | cons t ts ih =>
    by_cases h : isChildOf tasks t
    · simp [List.foldl_cons, hierStep, h, ih, List.filter_cons]
    · simp [List.foldl_cons, hierStep, h, ih, List.filter_cons]

theorem hier_foldl_children (tasks l : List ClickUpTask)
    (acc : List ClickUpTask × (String → List ClickUpTask)) (p : String) :
    (l.foldl (hierStep tasks) acc).2 p
      = acc.2 p
        ++ l.filter (fun t => isChildOf tasks t && decide (t.parent_id.getD "" = p)) := by
  induction l generalizing acc with
  | nil => simp
  | cons t ts ih =>
    by_cases h : isChildOf tasks t
    · by_cases hp : t.parent_id.getD "" = p
      · subst hp
        simp [List.foldl_cons, hierStep, h, ih, List.filter_cons]
      · have hp' : p ≠ t.parent_id.getD "" := fun he => hp he.symm
        simp [List.foldl_cons, hierStep, h, ih, List.filter_cons, hp, hp']
    · simp [List.foldl_cons, hierStep, h, ih, List.filter_cons]

/-- C3: `_build_task_hierarchy` files an item into a parent's child list
iff its parent-id is set (truthy) and equals the id of some item of the
input list; every other item is top-level.  Both results are filters of
the input list, so the top-level order and each child list's order are
the input's relative order; no sorting is applied. -/
theorem C3_hierarchy (tasks : List ClickUpTask) :
    (build_task_hierarchy tasks).1
      = tasks.filter (fun t =>
          !(pyTruthy t.parent_id && hasId tasks (t.parent_id.getD ""))) ∧
    ∀ p : String,
      (build_task_hierarchy tasks).2 p
        = tasks.filter (fun t =>
            decide (t.parent_id = some p) && pyTruthy t.parent_id && hasId tasks p) := by
  constructor
  · simpa [isChildOf] using hier_foldl_top tasks tasks ([], fun _ => [])
  · intro p
    rw [build_task_hierarchy, hier_foldl_children tasks tasks ([], fun _ => []) p]
    simp only [List.nil_append]
    apply List.filter_congr
    intro t _
    cases hpar : t.parent_id with
    | none => simp [isChildOf, pyTruthy, hpar]
    | some q =>
      by_cases hq : q = p
      · subst hq
        simp [isChildOf, pyTruthy, hpar]
      · simp [isChildOf, pyTruthy, hpar, hq]

/-- C9 (counterexample): on the two-item parent cycle
`[cycleTaskA, cycleTaskB]` the first-processed item does *not* occupy the
top-level slot — the top-level list is empty and each item is filed as the
other's child. -/
theorem C9_counterexample :
    (build_task_hierarchy [cycleTaskA, cycleTaskB]).1 = [] ∧
    cycleTaskA ∉ (build_task_hierarchy [cycleTaskA, cycleTaskB]).1 ∧
    (build_task_hierarchy [cycleTaskA, cycleTaskB]).2 "b" = [cycleTaskA] ∧
    (build_task_hierarchy [cycleTaskA, cycleTaskB]).2 "a" = [cycleTaskB] := by
  refine ⟨by decide, by decide, by decide, by decide⟩

/-- C9 (amended): `buildHierarchy` terminates on parent cycles and
self-parenting (it is a single structurally-recursive pass over the fixed
lookup, total by construction); in a two-item cycle neither item occupies
the top-level slot: the top-level list is empty and each item is filed as
the other's child; a self-parenting item is likewise filed as its own
child. -/
theorem C9_cycles (A B : ClickUpTask)
    (hab : A.task_id ≠ B.task_id)
    (hA : A.parent_id = some B.task_id) (hB : B.parent_id = some A.task_id)
    (hbne : B.task_id ≠ "") (hane : A.task_id ≠ "") :
    ((build_task_hierarchy [A, B]).1 = [] ∧
     (build_task_hierarchy [A, B]).2 B.task_id = [A] ∧
     (build_task_hierarchy [A, B]).2 A.task_id = [B]) ∧
    ∀ C : ClickUpTask, C.parent_id = some C.task_id → C.task_id ≠ "" →
      (build_task_hierarchy [C]).1 = [] ∧
      (build_task_hierarchy [C]).2 C.task_id = [C] := by
  constructor
  · have hchA : isChildOf [A, B] A = true := by
      simp [isChildOf, pyTruthy, hasId, hA, hbne]
    have hchB : isChildOf [A, B] B = true := by
      simp [isChildOf, pyTruthy, hasId, hB, hane]
    refine ⟨?_, ?_, ?_⟩
    · rw [build_task_hierarchy, hier_foldl_top]
      simp [hchA, hchB]
    · rw [build_task_hierarchy, hier_foldl_children]
      simp [hchA, hchB, hA, hB, List.filter_cons, hab]
    · rw [build_task_hierarchy, hier_foldl_children]
      simp [hchA, hchB, hA, hB, List.filter_cons, hab.symm]
  · intro C hC hCne
    have hch : isChildOf [C] C = true := by
      simp [isChildOf, pyTruthy, hasId, hC, hCne]
    constructor
    · rw [build_task_hierarchy, hier_foldl_top]
      simp [hch]
    · rw [build_task_hierarchy, hier_foldl_children]
      simp [hch, hC]

/-- C9 witness: the amended cycle behaviour evaluated on the concrete
two-item cycle. -/
theorem C9_witness :
    (build_task_hierarchy [cycleTaskA, cycleTaskB]).2 "b" = [cycleTaskA] :=
  (C9_cycles cycleTaskA cycleTaskB (by decide) (by decide) (by decide)
    (by decide) (by decide)).1.2.1

/- ------------------------------------------------------------------
   Theorems for claim C6 (manual notes)
   ------------------------------------------------------------------ -/

theorem rstripChars_length_le (l : List Char) :
    (rstripChars l).length ≤ l.length := by
  calc (rstripChars l).length
      = (l.reverse.dropWhile pyIsSpace).length := by simp [rstripChars]
    _ ≤ l.reverse.length := (List.dropWhile_sublist _).length_le
    _ = l.length := List.length_reverse l

theorem manual_foldl (l : List String) (acc : List (List InlineElem)) :
    l.foldl manualFold acc
      = acc ++ (l.filter (fun t => collapseNote t ≠ "")).map
          (fun t => mkSection [mkText (truncNote (collapseNote t))]) := by
  induction l generalizing acc with
  | nil => simp
  | cons x xs ih =>
    by_cases h : collapseNote x = ""
    · simp [List.foldl_cons, manualFold, h, ih, List.filter_cons]
    · simp [List.foldl_cons, manualFold, h, ih, List.filter_cons]

/-- C6 (counterexample): the claim says a 200-character manual note
renders as exactly 179 characters plus one ellipsis marker (180 visible
characters); `manualNote200` is a 200-character note that needs no
whitespace collapsing, yet renders as 179 characters in total, because the
code right-strips the 179-character cut before appending the ellipsis. -/
theorem C6_counterexample :
    manualNote200.length = 200 ∧
    collapseNote manualNote200 = manualNote200 ∧
    (truncNote (collapseNote manualNote200)).length = 179 ∧
    (truncNote (collapseNote manualNote200)).length ≠ 180 ∧
    build_manual_elements [manualNote200]
      = [RichElem.list 1 [mkSection [mkText (truncNote manualNote200)]]] := by
  refine ⟨by decide, by decide, by decide, by decide, by decide⟩

/-- C6 (amended): among the first 20 manual notes, exactly those whose
whitespace-collapsed text is non-empty are rendered, in order, as
indent-1 bullets of the collapsed text; collapsed text over 180
characters renders as its first 179 characters right-stripped of trailing
whitespace plus one ellipsis marker — at most 180 visible characters, and
exactly 180 when the cut point is not preceded by whitespace — while a
note whose collapsed text has at most 180 characters renders unmodified. -/
theorem C6_manual_updates (notes : List String) (note : String) :
    build_manual_elements notes
      = (if ((notes.take 20).filter (fun t => collapseNote t ≠ "")) = [] then
          ([] : List RichElem)
         else
          [RichElem.list 1
            (((notes.take 20).filter (fun t => collapseNote t ≠ "")).map
              (fun t => mkSection [mkText (truncNote (collapseNote t))]))]) ∧
    (collapseNote note = note → note.length ≤ 180 →
      truncNote (collapseNote note) = note) ∧
    ((collapseNote note).length > 180 →
      truncNote (collapseNote note)
        = String.mk (rstripChars ((collapseNote note).data.take 179) ++ ['…']) ∧
      (truncNote (collapseNote note)).length ≤ 180) := by
  refine ⟨?_, ?_, ?_⟩
  · have hitems : manualItems notes
        = ((notes.take 20).filter (fun t => collapseNote t ≠ "")).map
            (fun t => mkSection [mkText (truncNote (collapseNote t))]) := by
      rw [manualItems]
      simpa using manual_foldl (notes.take 20) []
    by_cases hn : notes = []
    · subst hn; simp [build_manual_elements]
    · rw [build_manual_elements, if_neg hn, hitems]
      by_cases hf : ((notes.take 20).filter (fun t => collapseNote t ≠ "")) = []
      · simp [hf]
      · simp [hf]
  · intro hcol hlen
    rw [hcol, truncNote, if_neg (by omega)]
  · intro hlen
    rw [truncNote, if_pos hlen]
    refine ⟨rfl, ?_⟩
    have h1 : (rstripChars ((collapseNote note).data.take 179)).length ≤ 179 := by
      calc (rstripChars ((collapseNote note).data.take 179)).length
          ≤ ((collapseNote note).data.take 179).length :=
            rstripChars_length_le _
        _ ≤ 179 := by
            rw [List.length_take]; exact Nat.min_le_left _ _
    calc (String.mk (rstripChars ((collapseNote note).data.take 179) ++ ['…'])).length
        = (rstripChars ((collapseNote note).data.take 179)).length + 1 := by
          simp [String.length_mk]
      _ ≤ 180 := by omega

/-- C6 witness: the amended truncation rule evaluated on the 200-character
whitespace-free note (here the render is exactly 180 characters). -/
theorem C6_witness :
    (collapseNote manualNotePlain200).length > 180 ∧
    truncNote (collapseNote manualNotePlain200)
      = String.mk (rstripChars ((collapseNote manualNotePlain200).data.take 179) ++ ['…']) ∧
    (truncNote (collapseNote manualNotePlain200)).length ≤ 180 ∧
    (truncNote (collapseNote manualNotePlain200)).length = 180 := by
  have h := (C6_manual_updates [manualNotePlain200] manualNotePlain200).2.2
    (by decide)
  exact ⟨by decide, h.1, h.2, by decide⟩

/- ------------------------------------------------------------------
   Theorems for claim C7 (comment subtext)
   ------------------------------------------------------------------ -/

theorem group_comments_foldl (cs : List ClickUpComment)
    (acc : String → List String) (tid : String) :
    (cs.foldl commentGroupStep acc) tid
      = acc tid
        ++ ((cs.filter (fun c =>
              decide (c.task_id = tid) && decide (pyStrip c.comment_text ≠ ""))).map
            (fun c => pyStrip c.comment_text)) := by
  induction cs generalizing acc with
  | nil => simp
  | cons c cs ih =>
    rw [List.foldl_cons, ih, List.filter_cons]
    by_cases he : pyStrip c.comment_text = ""
    · simp [commentGroupStep, he]
    · by_cases ht : tid = c.task_id
      · subst ht
        simp [commentGroupStep, he]
      · have ht' : ¬ c.task_id = tid := fun h => ht h.symm
        simp [commentGroupStep, he, ht, ht']

/-- C7 (counterexample): the claim says a 250-character comment shows as
exactly 100 characters (99 plus ellipsis); `comment250` is a
250-character comment that needs no collapsing, yet shortens to 99
characters, because the code right-strips the 99-character cut before
appending the ellipsis. -/
theorem C7_counterexample :
    comment250.length = 250 ∧
    (shorten_line comment250).length = 99 ∧
    (shorten_line comment250).length ≠ 100 := by
  refine ⟨by decide, by decide, by decide⟩

/-- C7 (amended): at most the first 2 of an item's comments are shown, as
separate `"\nnote: "` subtext lines; each comment is whitespace-collapsed
and, when the collapsed text exceeds 100 characters, cut at 99 characters,
right-stripped of trailing whitespace, with one ellipsis character
appended — at most 100 visible characters, and exactly 100 when the cut is
not preceded by whitespace; an item with zero comments produces an empty
subtext; grouping keeps only non-whitespace comments, per task, in arrival
order. -/
theorem C7_comments (text : String) (tid : String) (cs : List ClickUpComment)
    (m : String → List String) :
    ((pyCollapse text).length ≤ 100 → shorten_line text = pyCollapse text) ∧
    ((pyCollapse text).length > 100 →
      shorten_line text
        = String.mk (rstripChars ((pyCollapse text).data.take 99) ++ ['…']) ∧
      (shorten_line text).length ≤ 100) ∧
    (group_comments_by_task cs tid
      = ((cs.filter (fun c =>
            decide (c.task_id = tid) && decide (pyStrip c.comment_text ≠ ""))).map
          (fun c => pyStrip c.comment_text))) ∧
    (task_comment_subtext tid m
      = concatStrs (((m tid).take 2).map (fun s => "\nnote: " ++ shorten_line s))) ∧
    (m tid = [] → task_comment_subtext tid m = "") := by
  refine ⟨?_, ?_, ?_, ?_, ?_⟩
  · intro h
    rw [shorten_line, if_pos h]
  · intro h
    rw [shorten_line, if_neg (by omega)]
    refine ⟨rfl, ?_⟩
    have h1 : (rstripChars ((pyCollapse text).data.take 99)).length ≤ 99 := by
      calc (rstripChars ((pyCollapse text).data.take 99)).length
          ≤ ((pyCollapse text).data.take 99).length := rstripChars_length_le _
        _ ≤ 99 := by rw [List.length_take]; exact Nat.min_le_left _ _
    calc (String.mk (rstripChars ((pyCollapse text).data.take 99) ++ ['…'])).length
        = (rstripChars ((pyCollapse text).data.take 99)).length + 1 := by
          simp [String.length_mk]
      _ ≤ 100 := by omega
  · simpa [group_comments_by_task] using
      group_comments_foldl cs (fun _ => []) tid
  · rcases h : m tid with _ | ⟨a, _ | ⟨b, rest⟩⟩ <;>
      simp [task_comment_subtext, h, concatStrs, String.append_assoc]
  · intro h
    simp [task_comment_subtext, h]

/-- C7 witness: the amended shortening rule evaluated on the 250-character
whitespace-free comment (here the shortened text is exactly 100
characters) and the empty-comments case. -/
theorem C7_witness :
    (pyCollapse commentPlain250).length > 100 ∧
    shorten_line commentPlain250
      = String.mk (rstripChars ((pyCollapse commentPlain250).data.take 99) ++ ['…']) ∧
    (shorten_line commentPlain250).length = 100 ∧
    task_comment_subtext "t" (group_comments_by_task []) = "" := by
  have h := (C7_comments commentPlain250 "t" [] (group_comments_by_task [])).2.1
    (by decide)
  refine ⟨by decide, h.1, by decide, ?_⟩
  exact (C7_comments commentPlain250 "t" [] (group_comments_by_task [])).2.2.2.2
    (by decide)

/- ------------------------------------------------------------------
   Theorems for claim C8 (plain-text fallback)
   ------------------------------------------------------------------ -/

theorem pyJoin_cons_eq (sep x : String) (xs : List String) :
    pyJoin sep (x :: xs) = x ++ prependEach sep xs := by
  induction xs generalizing x with
  | nil => simp [pyJoin, prependEach]
  | cons y ys ih => simp [pyJoin, prependEach, ih, String.append_assoc]

/-- C8: the fallback renderer returns exactly the string claim C8
describes — it starts with `"Updates:"` and appends, joined with `" | "`,
the Development clause only when a GitHub fact is present, the Completed
and In-progress clauses only when the respective counts are positive, and
the Additional-updates clause only when manual notes exist; on the
concrete 3-commits / 1-opened-PR / 2-completed-tasks snapshot it returns
the exact string of the claim. -/
theorem C8_fallback (a : DailyActivity) :
    generate_summary a = fallbackSpec a ∧
    generate_summary fallbackExample
      = "Updates: | Development: 3 commits, 1 PRs opened, 0 PRs merged | Completed: 2 tasks" := by
  constructor
  · rw [generate_summary, fallbackSpec]
    by_cases h1 : a.github.commits ≠ [] ∨ a.github.prs_opened ≠ [] ∨
        a.github.prs_merged ≠ [] <;>
      by_cases h2 : a.clickup.tasks_completed ≠ [] <;>
        by_cases h3 : a.clickup.status_changes ≠ [] <;>
          by_cases h4 : a.manual_updates ≠ [] <;>
            simp [h1, h2, h3, h4, List.length_pos, pyJoin_cons_eq, prependEach,
              pyJoin, String.append_assoc]
  · decide

/- ------------------------------------------------------------------
   Theorems for claim C4 (each task rendered exactly once)
   ------------------------------------------------------------------ -/

theorem guardedEmit_foldl_fst_mem {β : Type} (g : ClickUpTask → β)
    (l : List ClickUpTask) (rc : List String × List β) (i : String) :
    i ∈ (l.foldl (guardedEmit g) rc).1
      ↔ i ∈ rc.1 ∨ i ∈ l.map (fun t => t.task_id) := by
  induction l generalizing rc with
  | nil => simp
  | cons t ts ih =>
    rw [List.foldl_cons]
    by_cases h : t.task_id ∈ rc.1
    · rw [guardedEmit, if_pos h, ih]
      simp only [List.map_cons, List.mem_cons]
      constructor
      · rintro (h1 | h2)
        · exact Or.inl h1
        · exact Or.inr (Or.inr h2)
      · rintro (h1 | rfl | h2)
        · exact Or.inl h1
        · exact Or.inl h
        · exact Or.inr h2
    · rw [guardedEmit, if_neg h, ih]
      simp only [List.map_cons, List.mem_cons]
      tauto

theorem guardedEmit_foldl_fst_nodup {β : Type} (g : ClickUpTask → β)
    (l : List ClickUpTask) :
    ∀ rc : List String × List β, rc.1.Nodup → (l.foldl (guardedEmit g) rc).1.Nodup := by
  induction l with
  | nil => intro rc h; exact h
  | cons t ts ih =>
    intro rc h
    rw [List.foldl_cons]
    by_cases ht : t.task_id ∈ rc.1
    · rw [guardedEmit, if_pos ht]; exact ih _ h
    · rw [guardedEmit, if_neg ht]
      exact ih _ (List.nodup_cons.mpr ⟨ht, h⟩)

theorem foldl_fst_mono {σ : Type} (f : σ → ClickUpTask → σ) (proj : σ → List String)
    (hstep : ∀ st t i, i ∈ proj st → i ∈ proj (f st t)) (l : List ClickUpTask) :
    ∀ st i, i ∈ proj st → i ∈ proj (l.foldl f st) := by
  induction l with
  | nil => intro st i h; exact h
  | cons t ts ih =>
    intro st i h
    rw [List.foldl_cons]
    exact ih _ _ (hstep st t i h)

theorem foldl_fst_upper {σ : Type} (f : σ → ClickUpTask → σ) (proj : σ → List String)
    (bound : ClickUpTask → List String)
    (hstep : ∀ st t i, i ∈ proj (f st t) → i ∈ proj st ∨ i ∈ bound t)
    (l : List ClickUpTask) :
    ∀ st i, i ∈ proj (l.foldl f st) → i ∈ proj st ∨ ∃ t ∈ l, i ∈ bound t := by
  induction l with
  | nil => intro st i h; exact Or.inl h
  | cons t ts ih =>
    intro st i h
    rw [List.foldl_cons] at h
    rcases ih _ _ h with h1 | ⟨u, hu, hb⟩
    · rcases hstep st t i h1 with h2 | h3
      · exact Or.inl h2
      · exact Or.inr ⟨t, List.mem_cons_self _ _, h3⟩
    · exact Or.inr ⟨u, List.mem_cons_of_mem _ hu, hb⟩

theorem foldl_fst_nodup {σ : Type} (f : σ → ClickUpTask → σ) (proj : σ → List String)
    (hstep : ∀ st t, (proj st).Nodup → (proj (f st t)).Nodup) (l : List ClickUpTask) :
    ∀ st, (proj st).Nodup → (proj (l.foldl f st)).Nodup := by
  induction l with
  | nil => intro st h; exact h
  | cons t ts ih =>
    intro st h
    rw [List.foldl_cons]
    exact ih _ (hstep st t h)

theorem pass1Step_fst_mono (children : String → List ClickUpTask)
    (m : String → List String) (cIds : List String)
    (st : List String × List RichElem) (t : ClickUpTask) (i : String)
    (h : i ∈ st.1) : i ∈ (pass1Step children m cIds st t).1 := by
  rw [pass1Step]
  by_cases hc : t.task_id ∈ cIds ∧ t.task_id ∉ st.1
  · rw [if_pos hc, emitWithChildren, childFoldOf]
    exact (guardedEmit_foldl_fst_mem _ _ _ _).mpr
      (Or.inl (List.mem_cons_of_mem _ h))
  · rw [if_neg hc]; exact h

theorem pass1Step_fst_upper (children : String → List ClickUpTask)
    (m : String → List String) (cIds : List String)
    (st : List String × List RichElem) (t : ClickUpTask) (i : String)
    (h : i ∈ (pass1Step children m cIds st t).1) :
    i ∈ st.1 ∨ i ∈ t.task_id :: (children t.task_id).map (fun c => c.task_id) := by
  rw [pass1Step] at h
  by_cases hc : t.task_id ∈ cIds ∧ t.task_id ∉ st.1
  · rw [if_pos hc, emitWithChildren, childFoldOf] at h
    rcases (guardedEmit_foldl_fst_mem _ _ _ _).mp h with h1 | h2
    · rcases List.mem_cons.mp h1 with h3 | h4
      · exact Or.inr (h3 ▸ List.mem_cons_self _ _)
      · exact Or.inl h4
    · exact Or.inr (List.mem_cons_of_mem _ h2)
  · rw [if_neg hc] at h; exact Or.inl h

theorem pass1Step_fst_nodup (children : String → List ClickUpTask)
    (m : String → List String) (cIds : List String)
    (st : List String × List RichElem) (t : ClickUpTask)
    (h : st.1.Nodup) : (pass1Step children m cIds st t).1.Nodup := by
  rw [pass1Step]
  by_cases hc : t.task_id ∈ cIds ∧ t.task_id ∉ st.1
  · rw [if_pos hc, emitWithChildren, childFoldOf]
    exact guardedEmit_foldl_fst_nodup _ _ _ (List.nodup_cons.mpr ⟨hc.2, h⟩)
  · rw [if_neg hc]; exact h

theorem pass3Step_fst_mono (children : String → List ClickUpTask)
    (m : String → List String)
    (st : List String × List RichElem) (t : ClickUpTask) (i : String)
    (h : i ∈ st.1) : i ∈ (pass3Step children m st t).1 := by
  rw [pass3Step]
  by_cases hr : t.task_id ∈ st.1
  · rw [if_pos hr]; exact h
  · rw [if_neg hr, emitWithChildren, childFoldOf]
    exact (guardedEmit_foldl_fst_mem _ _ _ _).mpr
      (Or.inl (List.mem_cons_of_mem _ h))

theorem pass3Step_fst_upper (children : String → List ClickUpTask)
    (m : String → List String)
    (st : List String × List RichElem) (t : ClickUpTask) (i : String)
    (h : i ∈ (pass3Step children m st t).1) :
    i ∈ st.1 ∨ i ∈ t.task_id :: (children t.task_id).map (fun c => c.task_id) := by
  rw [pass3Step] at h
  by_cases hr : t.task_id ∈ st.1
  · rw [if_pos hr] at h; exact Or.inl h
  · rw [if_neg hr, emitWithChildren, childFoldOf] at h
    rcases (guardedEmit_foldl_fst_mem _ _ _ _).mp h with h1 | h2
    · rcases List.mem_cons.mp h1 with h3 | h4
      · exact Or.inr (h3 ▸ List.mem_cons_self _ _)
      · exact Or.inl h4
    · exact Or.inr (List.mem_cons_of_mem _ h2)

theorem pass3Step_fst_nodup (children : String → List ClickUpTask)
    (m : String → List String)
    (st : List String × List RichElem) (t : ClickUpTask)
    (h : st.1.Nodup) : (pass3Step children m st t).1.Nodup := by
  rw [pass3Step]
  by_cases hr : t.task_id ∈ st.1
  · rw [if_pos hr]; exact h
  · rw [if_neg hr, emitWithChildren, childFoldOf]
    exact guardedEmit_foldl_fst_nodup _ _ _ (List.nodup_cons.mpr ⟨hr, h⟩)

theorem bth_top_eq (U : List ClickUpTask) :
    (build_task_hierarchy U).1 = U.filter (fun t => !(isChildOf U t)) := by
  simpa using hier_foldl_top U U ([], fun _ => [])

theorem bth_children_eq (U : List ClickUpTask) (p : String) :
    (build_task_hierarchy U).2 p
      = U.filter (fun t => isChildOf U t && decide (t.parent_id.getD "" = p)) := by
  simpa using hier_foldl_children U U ([], fun _ => []) p

theorem pass2Step_eq (m : String → List String) :
    pass2Step m = guardedEmit (fun t => RichElem.list 1 [completedTaskSection t m]) :=
  rfl

theorem pass1_foldl_fst_upper (children : String → List ClickUpTask)
    (m : String → List String) (cIds : List String) (U : List ClickUpTask)
    (hch : ∀ p c, c ∈ children p → c ∈ U)
    (tl : List ClickUpTask) (htl : ∀ t, t ∈ tl → t ∈ U) :
    ∀ (st : List String × List RichElem) (i : String),
      i ∈ (tl.foldl (pass1Step children m cIds) st).1 →
      i ∈ st.1 ∨ i ∈ U.map (fun t => t.task_id) := by
  intro st i hi
  rcases foldl_fst_upper _ Prod.fst
      (fun t => t.task_id :: (children t.task_id).map (fun c => c.task_id))
      (fun st t i h => pass1Step_fst_upper children m cIds st t i h) tl st i hi with
    h1 | ⟨t, ht, hb⟩
  · exact Or.inl h1
  · rcases List.mem_cons.mp hb with rfl | hcin
    · exact Or.inr (List.mem_map_of_mem _ (htl t ht))
    · rcases List.mem_map.mp hcin with ⟨c, hc, rfl⟩
      exact Or.inr (List.mem_map_of_mem _ (hch _ _ hc))

theorem pass3_foldl_fst_upper (children : String → List ClickUpTask)
    (m : String → List String) (U : List ClickUpTask)
    (hch : ∀ p c, c ∈ children p → c ∈ U)
    (tl : List ClickUpTask) (htl : ∀ t, t ∈ tl → t ∈ U) :
    ∀ (st : List String × List RichElem) (i : String),
      i ∈ (tl.foldl (pass3Step children m) st).1 →
      i ∈ st.1 ∨ i ∈ U.map (fun t => t.task_id) := by
  intro st i hi
  rcases foldl_fst_upper _ Prod.fst
      (fun t => t.task_id :: (children t.task_id).map (fun c => c.task_id))
      (fun st t i h => pass3Step_fst_upper children m st t i h) tl st i hi with
    h1 | ⟨t, ht, hb⟩
  · exact Or.inl h1
  · rcases List.mem_cons.mp hb with rfl | hcin
    · exact Or.inr (List.mem_map_of_mem _ (htl t ht))
    · rcases List.mem_map.mp hcin with ⟨c, hc, rfl⟩
      exact Or.inr (List.mem_map_of_mem _ (hch _ _ hc))

theorem clickupRendered_eq (cu : ClickUpActivity)
    (h : ¬(cu.tasks_updated = [] ∧ cu.tasks_completed = [] ∧ cu.comments = [])) :
    clickupRendered cu = (clickupFinalFold cu).1 := by
  rw [clickupRendered, clickupState, if_neg h]

/-- C4: for every ClickUp activity value, the rendered-id list of the
Task-updates renderer (one entry per emitted bullet across the four
passes) has no duplicates, and an id is rendered iff it is a task id of
the updated set or of the completed set: no item appears in two bullets
and no item is dropped. -/
theorem C4_rendered_once (cu : ClickUpActivity) :
    (clickupRendered cu).Nodup ∧
    ∀ i : String, i ∈ clickupRendered cu ↔
      (i ∈ cu.tasks_updated.map (fun t => t.task_id) ∨
       i ∈ cu.tasks_completed.map (fun t => t.task_id)) := by
  by_cases hempty : cu.tasks_updated = [] ∧ cu.tasks_completed = [] ∧ cu.comments = []
  · obtain ⟨h1, h2, h3⟩ := hempty
    constructor
    · rw [clickupRendered, clickupState, if_pos ⟨h1, h2, h3⟩]
      exact List.nodup_nil
    · intro i
      rw [clickupRendered, clickupState, if_pos ⟨h1, h2, h3⟩]
      simp [h1, h2]
  · have htl : ∀ t, t ∈ (build_task_hierarchy cu.tasks_updated).1 →
        t ∈ cu.tasks_updated := by
      intro t ht
      rw [bth_top_eq] at ht
      exact List.mem_of_mem_filter ht
    have hch : ∀ p c, c ∈ (build_task_hierarchy cu.tasks_updated).2 p →
        c ∈ cu.tasks_updated := by
      intro p c hc
      rw [bth_children_eq] at hc
      exact List.mem_of_mem_filter hc
    constructor
    · rw [clickupRendered_eq cu hempty, clickupFinalFold, clickupPrefixState,
        pass2Step_eq]
      apply guardedEmit_foldl_fst_nodup
      apply foldl_fst_nodup _ Prod.fst
        (fun st t h => pass3Step_fst_nodup _ _ st t h)
      apply guardedEmit_foldl_fst_nodup
      apply foldl_fst_nodup _ Prod.fst
        (fun st t h => pass1Step_fst_nodup _ _ _ st t h)
      exact List.nodup_nil
    · intro i
      rw [clickupRendered_eq cu hempty, clickupFinalFold, clickupPrefixState,
        pass2Step_eq, guardedEmit_foldl_fst_mem]
      constructor
      · rintro (h3 | hU)
        · rcases pass3_foldl_fst_upper _ _ cu.tasks_updated hch _ htl _ _ h3 with
            h2 | hU
          · rcases (guardedEmit_foldl_fst_mem _ _ _ _).mp h2 with h1 | hC
            · rcases pass1_foldl_fst_upper _ _ _ cu.tasks_updated hch _ htl _ _ h1 with
                h0 | hU
              · simp at h0
              · exact Or.inl hU
            · exact Or.inr hC
          · exact Or.inl hU
        · exact Or.inl hU
      · rintro (hU | hC)
        · exact Or.inr hU
        · refine Or.inl ?_
          apply foldl_fst_mono _ Prod.fst
            (fun st t i h => pass3Step_fst_mono _ _ st t i h)
          exact (guardedEmit_foldl_fst_mem _ _ _ _).mpr (Or.inr hC)

/- ------------------------------------------------------------------
   Theorems for claim C10 (no empty bulleted line)
   ------------------------------------------------------------------ -/

theorem mkSection_ok (l : List InlineElem) : sectionOKb (mkSection l) = true := by
  rw [mkSection]
  by_cases h : l.filter (fun e => !(isEmptyTextElem e)) = []
  · rw [if_pos h]; decide
  · rw [if_neg h]
    rw [sectionOKb, Bool.and_eq_true]
    constructor
    · simp [List.isEmpty_iff, h]
    · rw [List.all_eq_true]
      intro e he
      exact (List.mem_filter.mp he).2

theorem completedTaskSection_ok (t : ClickUpTask) (m : String → List String) :
    sectionOKb (completedTaskSection t m) = true := by
  rw [completedTaskSection]; exact mkSection_ok _

theorem childTaskSection_ok (t : ClickUpTask) (m : String → List String) :
    sectionOKb (childTaskSection t m) = true := by
  rw [childTaskSection]; exact mkSection_ok _

theorem labelledTaskSection_ok (t : ClickUpTask) (m : String → List String) :
    sectionOKb (labelledTaskSection t m) = true := by
  rw [labelledTaskSection]; exact mkSection_ok _

theorem nextItemSection_ok (t : ClickUpTask) :
    sectionOKb (nextItemSection t) = true := by
  rw [nextItemSection]; exact mkSection_ok _

theorem prItemSection_ok (action : String) (pr : GitHubPR) :
    sectionOKb (prItemSection action pr) = true := by
  rw [prItemSection]; exact mkSection_ok _

theorem guardedEmit_foldl_snd_pres {β : Type} (Q : β → Prop) (g : ClickUpTask → β)
    (hg : ∀ t, Q (g t)) (l : List ClickUpTask) :
    ∀ rc : List String × List β, (∀ b ∈ rc.2, Q b) →
      ∀ b ∈ (l.foldl (guardedEmit g) rc).2, Q b := by
  induction l with
  | nil => intro rc h; exact h
  | cons t ts ih =>
    intro rc h
    rw [List.foldl_cons]
    by_cases ht : t.task_id ∈ rc.1
    · rw [guardedEmit, if_pos ht]; exact ih _ h
    · rw [guardedEmit, if_neg ht]
      apply ih
      intro b hb
      rcases List.mem_append.mp hb with h1 | h2
      · exact h b h1
      · rw [List.mem_singleton] at h2; subst h2
        exact hg t

theorem childFoldOf_snd_ok (children : String → List ClickUpTask)
    (m : String → List String) (st : List String × List RichElem)
    (t : ClickUpTask) :
    ∀ s ∈ (childFoldOf children m st t).2, sectionOKb s = true := by
  rw [childFoldOf]
  apply guardedEmit_foldl_snd_pres (fun s => sectionOKb s = true) _
    (fun c => childTaskSection_ok c m)
  intro b hb
  simp at hb

theorem emitWithChildren_snd_ok (children : String → List ClickUpTask)
    (m : String → List String) (sec : List InlineElem)
    (st : List String × List RichElem) (t : ClickUpTask)
    (hsec : sectionOKb sec = true)
    (h : ∀ b ∈ st.2, richElemOK b = true ∧ isListElem b = true) :
    ∀ b ∈ (emitWithChildren children m sec st t).2,
      richElemOK b = true ∧ isListElem b = true := by
  rw [emitWithChildren]
  by_cases hrc : (childFoldOf children m st t).2 ≠ []
  · rw [if_pos hrc]
    intro b hb
    rcases List.mem_append.mp hb with h1 | h2
    · rcases List.mem_append.mp h1 with h3 | h4
      · exact h b h3
      · rw [List.mem_singleton] at h4; subst h4
        exact ⟨by simp [richElemOK, hsec], rfl⟩
    · rw [List.mem_singleton] at h2; subst h2
      refine ⟨?_, rfl⟩
      simp only [richElemOK, List.all_eq_true]
      exact childFoldOf_snd_ok children m st t
  · rw [if_neg hrc]
    intro b hb
    rcases List.mem_append.mp hb with h1 | h2
    · exact h b h1
    · rw [List.mem_singleton] at h2; subst h2
      exact ⟨by simp [richElemOK, hsec], rfl⟩

theorem pass1Step_snd_ok (children : String → List ClickUpTask)
    (m : String → List String) (cIds : List String)
    (st : List String × List RichElem) (t : ClickUpTask)
    (h : ∀ b ∈ st.2, richElemOK b = true ∧ isListElem b = true) :
    ∀ b ∈ (pass1Step children m cIds st t).2,
      richElemOK b = true ∧ isListElem b = true := by
  rw [pass1Step]
  by_cases hc : t.task_id ∈ cIds ∧ t.task_id ∉ st.1
  · rw [if_pos hc]
    exact emitWithChildren_snd_ok children m _ st t (completedTaskSection_ok t m) h
  · rw [if_neg hc]; exact h

theorem pass3Step_snd_ok (children : String → List ClickUpTask)
    (m : String → List String)
    (st : List String × List RichElem) (t : ClickUpTask)
    (h : ∀ b ∈ st.2, richElemOK b = true ∧ isListElem b = true) :
    ∀ b ∈ (pass3Step children m st t).2,
      richElemOK b = true ∧ isListElem b = true := by
  rw [pass3Step]
  by_cases hr : t.task_id ∈ st.1
  · rw [if_pos hr]; exact h
  · rw [if_neg hr]
    exact emitWithChildren_snd_ok children m _ st t (labelledTaskSection_ok t m) h

theorem foldl_snd_pres {σ : Type} (f : σ → ClickUpTask → σ)
    (proj : σ → List RichElem) (Q : RichElem → Prop)
    (hstep : ∀ st t, (∀ b ∈ proj st, Q b) → ∀ b ∈ proj (f st t), Q b)
    (l : List ClickUpTask) :
    ∀ st, (∀ b ∈ proj st, Q b) → ∀ b ∈ proj (l.foldl f st), Q b := by
  induction l with
  | nil => intro st h; exact h
  | cons t ts ih =>
    intro st h
    rw [List.foldl_cons]
    exact ih _ (hstep st t h)

theorem clickupPrefixState_snd_ok (cu : ClickUpActivity) :
    ∀ b ∈ (clickupPrefixState cu).2,
      richElemOK b = true ∧ isListElem b = true := by
  rw [clickupPrefixState]
  apply foldl_snd_pres _ Prod.snd _
    (fun st t h => pass3Step_snd_ok _ _ st t h)
  rw [pass2Step_eq]
  apply guardedEmit_foldl_snd_pres
    (fun b => richElemOK b = true ∧ isListElem b = true)
    (fun t => RichElem.list 1
      [completedTaskSection t (group_comments_by_task cu.comments)])
    (fun t => ⟨by simp [richElemOK, completedTaskSection_ok], rfl⟩)
  apply foldl_snd_pres _ Prod.snd _
    (fun st t h => pass1Step_snd_ok _ _ _ st t h)
  intro b hb
  simp at hb

theorem clickupFinalFold_snd_ok (cu : ClickUpActivity) :
    ∀ s ∈ (clickupFinalFold cu).2, sectionOKb s = true := by
  rw [clickupFinalFold]
  apply guardedEmit_foldl_snd_pres (fun s => sectionOKb s = true) _
    (fun t => labelledTaskSection_ok t (group_comments_by_task cu.comments))
  intro b hb
  simp at hb

theorem build_clickup_elements_shape (cu : ClickUpActivity) :
    ∀ b ∈ build_clickup_elements cu,
      richElemOK b = true ∧ isListElem b = true := by
  rw [build_clickup_elements, clickupState]
  by_cases hempty : cu.tasks_updated = [] ∧ cu.tasks_completed = [] ∧ cu.comments = []
  · rw [if_pos hempty]; intro b hb; simp at hb
  · rw [if_neg hempty]
    by_cases hrc : (clickupFinalFold cu).2 ≠ []
    · rw [if_pos hrc]
      intro b hb
      rcases List.mem_append.mp hb with h1 | h2
      · exact clickupPrefixState_snd_ok cu b h1
      · rw [List.mem_singleton] at h2; subst h2
        refine ⟨?_, rfl⟩
        simp only [richElemOK, List.all_eq_true]
        exact clickupFinalFold_snd_ok cu
    · rw [if_neg hrc]
      exact fun b hb => clickupPrefixState_snd_ok cu b hb

theorem repoSubItems_ok (gh : GitHubActivity) (r : String) :
    ∀ s ∈ repoSubItems gh r, sectionOKb s = true := by
  intro s hs
  rw [repoSubItems] at hs
  rcases List.mem_append.mp hs with h1 | h2
  · rcases List.mem_map.mp h1 with ⟨c, _, rfl⟩
    exact mkSection_ok _
  · rcases List.mem_map.mp h2 with ⟨ap, _, rfl⟩
    exact prItemSection_ok ap.1 ap.2

theorem github_foldl_eq_flatMap (gh : GitHubActivity) (l : List String)
    (acc : List RichElem) :
    l.foldl
      (fun elements repo =>
        (elements ++ [RichElem.list 1 [mkSection [mkText (repo ++ ":")]]])
          ++ (if repoSubItems gh repo ≠ [] then
                [RichElem.list 2 (repoSubItems gh repo)]
              else [])) acc
      = acc ++ l.flatMap (fun repo =>
          [RichElem.list 1 [mkSection [mkText (repo ++ ":")]]]
            ++ (if repoSubItems gh repo ≠ [] then
                  [RichElem.list 2 (repoSubItems gh repo)]
                else [])) := by
  induction l generalizing acc with
  | nil => simp
  | cons r rs ih =>
    rw [List.foldl_cons, List.flatMap_cons, ih]
    simp [List.append_assoc]

theorem build_github_elements_shape (gh : GitHubActivity) :
    ∀ e ∈ build_github_elements gh,
      richElemOK e = true ∧ isListElem e = true := by
  rw [build_github_elements]
  by_cases h0 : gh.commits = [] ∧ gh.prs_opened = [] ∧ gh.prs_merged = []
  · rw [if_pos h0]; intro e he; simp at he
  · rw [if_neg h0]
    by_cases h1 : (allRepos gh).length > 1
    · rw [if_pos h1, github_foldl_eq_flatMap]
      intro e he
      simp only [List.nil_append] at he
      rcases List.mem_flatMap.mp he with ⟨r, _, hr⟩
      rcases List.mem_append.mp hr with h2 | h3
      · rw [List.mem_singleton] at h2; subst h2
        exact ⟨by simp [richElemOK, mkSection_ok], rfl⟩
      · by_cases hs : repoSubItems gh r ≠ []
        · rw [if_pos hs, List.mem_singleton] at h3
          subst h3
          refine ⟨?_, rfl⟩
          simp only [richElemOK, List.all_eq_true]
          exact repoSubItems_ok gh r
        · rw [if_neg hs] at h3; simp at h3
    · rw [if_neg h1]
      by_cases h2 : repoSubItems gh ((allRepos gh).headD "") ≠ []
      · rw [if_pos h2]
        intro e he
        rw [List.mem_singleton] at he; subst he
        refine ⟨?_, rfl⟩
        simp only [richElemOK, List.all_eq_true]
        exact repoSubItems_ok gh _
      · rw [if_neg h2]; intro e he; simp at he

theorem manualItems_eq (notes : List String) :
    manualItems notes
      = ((notes.take 20).filter (fun t => collapseNote t ≠ "")).map
          (fun t => mkSection [mkText (truncNote (collapseNote t))]) := by
  rw [manualItems]
  simpa using manual_foldl (notes.take 20) []

theorem build_manual_elements_shape (notes : List String) :
    ∀ e ∈ build_manual_elements notes,
      richElemOK e = true ∧ isListElem e = true := by
  intro e he
  rw [build_manual_elements] at he
  split_ifs at he with h0 h1
  · simp at he
  · simp at he
  · rw [List.mem_singleton] at he; subst he
    refine ⟨?_, rfl⟩
    simp only [richElemOK, List.all_eq_true]
    intro s hs
    rw [manualItems_eq] at hs
    rcases List.mem_map.mp hs with ⟨t, _, rfl⟩
    exact mkSection_ok _

theorem build_next_elements_ok (a : DailyActivity) :
    ∀ s ∈ build_next_elements a, sectionOKb s = true := by
  intro s hs
  rw [build_next_elements] at hs
  rcases List.mem_map.mp hs with ⟨t, _, rfl⟩
  exact nextItemSection_ok t

theorem summaryStage1_shape (a : DailyActivity) :
    ∀ e ∈ summaryStage1 a,
      (e = updatesHeader ∨ isListElem e = true) ∧ richElemOK e = true := by
  intro e he
  rw [summaryStage1] at he
  split_ifs at he with h
  · rcases List.mem_append.mp he with h1 | h2
    · rcases List.mem_append.mp h1 with h3 | h4
      · rw [List.mem_singleton] at h3; subst h3
        exact ⟨Or.inl rfl, by simp [updatesHeader, richElemOK, mkSection_ok]⟩
      · rw [List.mem_singleton] at h4; subst h4
        exact ⟨Or.inr rfl, by simp [richElemOK, mkSection_ok]⟩
    · have hh := build_github_elements_shape a.github e h2
      exact ⟨Or.inr hh.2, hh.1⟩
  · rw [List.mem_singleton] at he; subst he
    exact ⟨Or.inl rfl, by simp [updatesHeader, richElemOK, mkSection_ok]⟩

theorem summaryStage2_shape (a : DailyActivity) :
    ∀ e ∈ summaryStage2 a,
      (e = updatesHeader ∨ isListElem e = true) ∧ richElemOK e = true := by
  intro e he
  rw [summaryStage2] at he
  split_ifs at he with h
  · rcases List.mem_append.mp he with h1 | h2
    · rcases List.mem_append.mp h1 with h3 | h4
      · exact summaryStage1_shape a e h3
      · rw [List.mem_singleton] at h4; subst h4
        exact ⟨Or.inr rfl, by simp [richElemOK, mkSection_ok]⟩
    · have hh := build_clickup_elements_shape a.clickup e h2
      exact ⟨Or.inr hh.2, hh.1⟩
  · exact summaryStage1_shape a e he

theorem summaryStage3_shape (a : DailyActivity) :
    ∀ e ∈ summaryStage3 a,
      (e = updatesHeader ∨ isListElem e = true) ∧ richElemOK e = true := by
  intro e he
  rw [summaryStage3] at he
  split_ifs at he with h
  · rcases List.mem_append.mp he with h1 | h2
    · rcases List.mem_append.mp h1 with h3 | h4
      · exact summaryStage2_shape a e h3
      · rw [List.mem_singleton] at h4; subst h4
        exact ⟨Or.inr rfl, by simp [richElemOK, mkSection_ok]⟩
    · have hh := build_manual_elements_shape a.manual_updates e h2
      exact ⟨Or.inr hh.2, hh.1⟩
  · exact summaryStage2_shape a e he

theorem summary_base_shape (a : DailyActivity) :
    ∀ e ∈ summary_base a,
      (e = updatesHeader ∨ isListElem e = true) ∧ richElemOK e = true := by
  intro e he
  rw [summary_base] at he
  split_ifs at he with h
  · rcases List.mem_append.mp he with h1 | h2
    · exact summaryStage3_shape a e h1
    · rw [List.mem_singleton] at h2; subst h2
      exact ⟨Or.inr rfl, by simp [richElemOK, mkSection_ok]⟩
  · exact summaryStage3_shape a e he

/-- C10: every bulleted line of the rendered document contains at least
one element and no empty text node — `_section` drops empty text nodes and
substitutes a single non-empty placeholder when nothing remains, so for
every snapshot the renderer's output has no empty bulleted line. -/
theorem C10_no_empty_bullets (a : DailyActivity) :
    docOK (generate_summary_blocks a) = true := by
  have hbase : ∀ e ∈ summary_base a, richElemOK e = true :=
    fun e he => (summary_base_shape a e he).2
  rw [generate_summary_blocks, docOK]
  simp only [List.all_cons, List.all_nil, Bool.and_true]
  rw [List.all_eq_true]
  intro e he
  rw [summary_rt_elements] at he
  split_ifs at he with hn
  · rcases List.mem_append.mp he with h1 | h2
    · rcases List.mem_append.mp h1 with h3 | h4
      · exact hbase e h3
      · rw [List.mem_singleton] at h4; subst h4
        simp [nextHeader, richElemOK, mkSection_ok]
    · rw [List.mem_singleton] at h2; subst h2
      simp only [richElemOK, List.all_eq_true]
      exact build_next_elements_ok a
  · exact hbase e he

/- ------------------------------------------------------------------
   Theorems for claim C5 (Next section)
   ------------------------------------------------------------------ -/

/-- C5: the Next candidates are exactly the in-progress items (the
`status_changes` bucket) whose lower-cased status is one of
{in progress, in review, review, in development}, whose id is not in the
completed bucket and which have no parent; the first 3 in fetch order are
emitted as Next items (with a `"pick: "` label when the status yields no
prefix, inside `nextItemSection`); the bold `"Next:"` header and its
indent-0 list are appended after the pre-Next document — which already
includes the empty-state rule — exactly when the candidate set is
non-empty, and the header occurs nowhere else in the document. -/
theorem C5_next_section (a : DailyActivity) :
    (∀ t : ClickUpTask, t ∈ next_candidates a ↔
      (t ∈ a.clickup.status_changes ∧
       pyLower t.status ∈
         (["in progress", "in review", "review", "in development"] : List String) ∧
       t.task_id ∉ completedTaskIds a ∧ t.parent_id = none)) ∧
    build_next_elements a = ((next_candidates a).take 3).map nextItemSection ∧
    (next_candidates a ≠ [] →
      summary_rt_elements a
        = (summary_base a ++ [nextHeader])
            ++ [RichElem.list 0 (build_next_elements a)]) ∧
    (next_candidates a = [] → summary_rt_elements a = summary_base a) ∧
    nextHeader ∉ summary_base a := by
  refine ⟨?_, rfl, ?_, ?_, ?_⟩
  · intro t
    rw [next_candidates, List.mem_filter]
    simp only [Bool.and_eq_true, decide_eq_true_eq]
    tauto
  · intro hne
    have hne' : build_next_elements a ≠ [] := by
      rw [build_next_elements]
      intro hmap
      rw [List.map_eq_nil_iff] at hmap
      rcases List.take_eq_nil_iff.mp hmap with h | h
      · exact absurd h (by decide)
      · exact hne h
    rw [summary_rt_elements, if_pos hne']
  · intro heq
    have h0 : build_next_elements a = [] := by
      rw [build_next_elements, heq]
      simp
    rw [summary_rt_elements, if_neg (by simp [h0])]
  · intro hmem
    rcases (summary_base_shape a nextHeader hmem).1 with h1 | h2
    · exact absurd h1 (by decide)
    · exact absurd h2 (by decide)

/-- C5 witness: the Next header and list are appended on a concrete
snapshot with one in-progress top-level task. -/
theorem C5_witness :
    summary_rt_elements wipExample
      = (summary_base wipExample ++ [nextHeader])
          ++ [RichElem.list 0 (build_next_elements wipExample)] :=
  (C5_next_section wipExample).2.2.1 (by decide)

/- ------------------------------------------------------------------
   Theorems for claim C2 (Development section)
   ------------------------------------------------------------------ -/

theorem getGroup_groupAppend {α : Type} (m : List (String × List α))
    (k k' : String) (a : α) :
    getGroup (groupAppend m k a) k'
      = if k' = k then getGroup m k' ++ [a] else getGroup m k' := by
  induction m with
  | nil =>
    by_cases h : k' = k
    · subst h; simp [groupAppend, getGroup, List.find?]
    · have h' : ¬ k = k' := fun he => h he.symm
      simp [groupAppend, getGroup, List.find?, h, h']
  | cons p rest ih =>
    obtain ⟨k'', v⟩ := p
    by_cases hk : k'' = k
    · subst hk
      by_cases h : k' = k''
      · subst h; simp [groupAppend, getGroup, List.find?]
      · have h' : ¬ k'' = k' := fun he => h he.symm
        simp [groupAppend, getGroup, List.find?, h, h']
    · by_cases h : k'' = k'
      · have hk' : ¬ k' = k := fun he => hk (h.trans he)
        simp [groupAppend, getGroup, List.find?, hk, h, hk']
      · simp [groupAppend, getGroup, List.find?, hk, h] at ih ⊢
        exact ih

theorem getGroup_foldl {α β : Type} (key : β → String) (val : β → α)
    (l : List β) (m0 : List (String × List α)) (k : String) :
    getGroup (l.foldl (fun m x => groupAppend m (key x) (val x)) m0) k
      = getGroup m0 k ++ (l.filter (fun x => key x = k)).map val := by
  induction l generalizing m0 with
  | nil => simp
  | cons x xs ih =>
    rw [List.foldl_cons, ih, getGroup_groupAppend, List.filter_cons]
    by_cases h : key x = k
    · simp [h, List.append_assoc]
    · have h' : ¬ k = key x := fun he => h he.symm
      simp [h, h']

theorem mem_groupKeys_groupAppend {α : Type} (m : List (String × List α))
    (k k' : String) (a : α) :
    k' ∈ groupKeys (groupAppend m k a) ↔ k' ∈ groupKeys m ∨ k' = k := by
  induction m with
  | nil => simp [groupAppend, groupKeys]
  | cons p rest ih =>
    obtain ⟨k'', v⟩ := p
    by_cases hk : k'' = k
    · subst hk
      simp [groupAppend, groupKeys]
      tauto
    · simp [groupAppend, groupKeys, hk] at ih ⊢
      tauto

theorem mem_groupKeys_foldl {α β : Type} (key : β → String) (val : β → α)
    (l : List β) (m0 : List (String × List α)) (k : String) :
    k ∈ groupKeys (l.foldl (fun m x => groupAppend m (key x) (val x)) m0)
      ↔ k ∈ groupKeys m0 ∨ k ∈ l.map key := by
  induction l generalizing m0 with
  | nil => simp
  | cons x xs ih =>
    rw [List.foldl_cons, ih, mem_groupKeys_groupAppend]
    simp only [List.map_cons, List.mem_cons]
    tauto

theorem sortStrings_sorted (l : List String) :
    List.Sorted (· ≤ ·) (sortStrings l) := by
  rw [sortStrings]
  exact List.sorted_mergeSort' l

theorem sortStrings_perm (l : List String) : (sortStrings l).Perm l :=
  List.mergeSort_perm l _

theorem mem_sortStrings (l : List String) (a : String) :
    a ∈ sortStrings l ↔ a ∈ l :=
  (sortStrings_perm l).mem_iff

theorem sortStrings_eq_of_mem_iff (l₁ l₂ : List String)
    (h₁ : l₁.Nodup) (h₂ : l₂.Nodup) (hm : ∀ a, a ∈ l₁ ↔ a ∈ l₂) :
    sortStrings l₁ = sortStrings l₂ := by
  have hp : l₁.Perm l₂ := (List.perm_ext_iff_of_nodup h₁ h₂).mpr hm
  exact List.eq_of_perm_of_sorted
    ((sortStrings_perm l₁).trans (hp.trans (sortStrings_perm l₂).symm))
    (sortStrings_sorted l₁) (sortStrings_sorted l₂)

theorem mem_groupKeys_commitsByRepo (gh : GitHubActivity) (r : String) :
    r ∈ groupKeys (commitsByRepo gh)
      ↔ r ∈ (gh.commits.take 15).map (fun c => repoShort c.repo) := by
  rw [commitsByRepo]
  have h := mem_groupKeys_foldl (fun c => repoShort c.repo) (fun c => c)
    (gh.commits.take 15) [] r
  simp only [groupKeys, List.map_nil, List.mem_nil_iff, false_or] at h
  exact h

theorem mem_groupKeys_prsByRepo (gh : GitHubActivity) (r : String) :
    r ∈ groupKeys (prsByRepo gh)
      ↔ (r ∈ (gh.prs_opened.take 15).map (fun pr => repoShort pr.repo) ∨
         r ∈ (gh.prs_merged.take 15).map (fun pr => repoShort pr.repo)) := by
  rw [prsByRepo]
  rw [mem_groupKeys_foldl (fun pr => repoShort pr.repo)
    (fun pr => (("merged" : String), pr)) (gh.prs_merged.take 15) _ r]
  rw [mem_groupKeys_foldl (fun pr => repoShort pr.repo)
    (fun pr => (("opened" : String), pr)) (gh.prs_opened.take 15) [] r]
  simp only [groupKeys, List.map_nil, List.mem_nil_iff, false_or]

theorem allRepos_eq_spec (gh : GitHubActivity) :
    allRepos gh = sortStrings (specRepoKeys gh).dedup := by
  rw [allRepos]
  apply sortStrings_eq_of_mem_iff _ _ (List.nodup_dedup _) (List.nodup_dedup _)
  intro r
  rw [List.mem_dedup, List.mem_dedup, List.mem_append,
    mem_groupKeys_commitsByRepo, mem_groupKeys_prsByRepo]
  rw [specRepoKeys, List.mem_append, List.mem_append]
  tauto

theorem getGroup_commitsByRepo (gh : GitHubActivity) (k : String) :
    getGroup (commitsByRepo gh) k
      = (gh.commits.take 15).filter (fun c => repoShort c.repo = k) := by
  rw [commitsByRepo]
  simpa using
    getGroup_foldl (fun c => repoShort c.repo) (fun c => c)
      (gh.commits.take 15) [] k

theorem getGroup_prsByRepo (gh : GitHubActivity) (k : String) :
    getGroup (prsByRepo gh) k
      = ((gh.prs_opened.take 15).filter (fun pr => repoShort pr.repo = k)).map
          (fun pr => (("opened" : String), pr))
        ++ ((gh.prs_merged.take 15).filter (fun pr => repoShort pr.repo = k)).map
          (fun pr => (("merged" : String), pr)) := by
  rw [prsByRepo]
  rw [getGroup_foldl (fun pr => repoShort pr.repo)
    (fun pr => (("merged" : String), pr)) (gh.prs_merged.take 15) _ k]
  rw [getGroup_foldl (fun pr => repoShort pr.repo)
    (fun pr => (("opened" : String), pr)) (gh.prs_opened.take 15) [] k]
  simp [getGroup, List.find?]

theorem repoSubItems_eq_spec (gh : GitHubActivity) (r : String) :
    repoSubItems gh r = specItemsFor gh r := by
  rw [repoSubItems, specItemsFor, getGroup_commitsByRepo, getGroup_prsByRepo,
    List.map_append, List.map_map, List.map_map]
  rw [List.append_assoc]
  rfl

theorem take15_ne_nil {α : Type} (l : List α) (h : l ≠ []) :
    l.take 15 ≠ [] := by
  intro hnil
  rcases List.take_eq_nil_iff.mp hnil with h15 | hl
  · exact absurd h15 (by decide)
  · exact h hl

theorem allRepos_ne_nil (gh : GitHubActivity)
    (h0 : ¬(gh.commits = [] ∧ gh.prs_opened = [] ∧ gh.prs_merged = [])) :
    allRepos gh ≠ [] := by
  have hmem : ∃ r, r ∈ allRepos gh := by
    by_cases hc : gh.commits = []
    · by_cases ho : gh.prs_opened = []
      · have hm : gh.prs_merged ≠ [] := fun hme => h0 ⟨hc, ho, hme⟩
        obtain ⟨pr, hpr⟩ :=
          List.exists_mem_of_ne_nil _ (take15_ne_nil gh.prs_merged hm)
        refine ⟨repoShort pr.repo, ?_⟩
        rw [allRepos, mem_sortStrings, List.mem_dedup, List.mem_append]
        right
        rw [mem_groupKeys_prsByRepo]
        right
        exact List.mem_map_of_mem _ hpr
      · obtain ⟨pr, hpr⟩ :=
          List.exists_mem_of_ne_nil _ (take15_ne_nil gh.prs_opened ho)
        refine ⟨repoShort pr.repo, ?_⟩
        rw [allRepos, mem_sortStrings, List.mem_dedup, List.mem_append]
        right
        rw [mem_groupKeys_prsByRepo]
        left
        exact List.mem_map_of_mem _ hpr
    · obtain ⟨c, hcm⟩ :=
        List.exists_mem_of_ne_nil _ (take15_ne_nil gh.commits hc)
      refine ⟨repoShort c.repo, ?_⟩
      rw [allRepos, mem_sortStrings, List.mem_dedup, List.mem_append]
      left
      rw [mem_groupKeys_commitsByRepo]
      exact List.mem_map_of_mem _ hcm
  obtain ⟨r, hr⟩ := hmem
  exact List.ne_nil_of_mem hr

theorem repoSubItems_ne_nil (gh : GitHubActivity) (r : String)
    (hr : r ∈ allRepos gh) : repoSubItems gh r ≠ [] := by
  rw [allRepos, mem_sortStrings, List.mem_dedup, List.mem_append,
    mem_groupKeys_commitsByRepo, mem_groupKeys_prsByRepo] at hr
  rw [repoSubItems_eq_spec, specItemsFor]
  rcases hr with hc | ho | hm
  · rcases List.mem_map.mp hc with ⟨c, hcm, hkey⟩
    apply List.ne_nil_of_mem (a := mkSection [mkText c.message])
    apply List.mem_append_left
    apply List.mem_append_left
    exact List.mem_map_of_mem _ (List.mem_filter.mpr ⟨hcm, by simp [hkey]⟩)
  · rcases List.mem_map.mp ho with ⟨pr, hpm, hkey⟩
    apply List.ne_nil_of_mem
      (a := mkSection [mkText "PR opened: ", mkLink pr.url pr.title])
    apply List.mem_append_left
    apply List.mem_append_right
    exact List.mem_map_of_mem _ (List.mem_filter.mpr ⟨hpm, by simp [hkey]⟩)
  · rcases List.mem_map.mp hm with ⟨pr, hpm, hkey⟩
    apply List.ne_nil_of_mem
      (a := mkSection [mkText "PR merged: ", mkLink pr.url pr.title])
    apply List.mem_append_right
    exact List.mem_map_of_mem _ (List.mem_filter.mpr ⟨hpm, by simp [hkey]⟩)

theorem flatMap_congr_mem {α β : Type} (l : List α) (f g : α → List β)
    (h : ∀ a ∈ l, f a = g a) : l.flatMap f = l.flatMap g := by
  induction l with
  | nil => rfl
  | cons x xs ih =>
    rw [List.flatMap_cons, List.flatMap_cons, h x (List.mem_cons_self _ _),
      ih (fun a ha => h a (List.mem_cons_of_mem _ ha))]

/-- C2: `_build_github_elements` produces exactly the Development-section
layout claim C2 describes: grouping by the substring after the final `/`
of the repo slug, over the union of repo keys of the capped (first 15)
commit / opened-PR / merged-PR lists; with more than one repo, for each
repo in alphabetical order an indent-1 bullet naming the repo followed by
the indent-2 list of its commit messages then its labelled PR links; with
exactly one repo the same item list directly at indent 1. -/
theorem C2_github_section (gh : GitHubActivity) :
    build_github_elements gh = githubElementsSpec gh := by
  rw [build_github_elements, githubElementsSpec]
  by_cases h0 : gh.commits = [] ∧ gh.prs_opened = [] ∧ gh.prs_merged = []
  · rw [if_pos h0]
    obtain ⟨h1, h2, h3⟩ := h0
    have hkeys : specRepoKeys gh = [] := by
      simp [specRepoKeys, h1, h2, h3]
    rw [hkeys]
    simp [sortStrings]
  · rw [if_neg h0]
    have hARspec : sortStrings (specRepoKeys gh).dedup = allRepos gh :=
      (allRepos_eq_spec gh).symm
    rw [hARspec]
    by_cases h1 : (allRepos gh).length > 1
    · rw [if_pos h1, if_pos h1, github_foldl_eq_flatMap]
      rw [List.nil_append]
      apply flatMap_congr_mem
      intro r hr
      rw [if_pos (repoSubItems_ne_nil gh r hr), repoSubItems_eq_spec]
      rfl
    · rw [if_neg h1, if_neg h1]
      have hne : allRepos gh ≠ [] := allRepos_ne_nil gh h0
      have hlen1 : (allRepos gh).length = 1 := by
        have hpos : 0 < (allRepos gh).length := List.length_pos.mpr hne
        omega
      rw [if_pos hlen1]
      have hhead : (allRepos gh).headD "" ∈ allRepos gh := by
        cases hl : allRepos gh with
        | nil => exact absurd hl hne
        | cons x xs => simp
      rw [if_pos (repoSubItems_ne_nil gh _ hhead), repoSubItems_eq_spec]
